import Mathlib

/-!
Shallow embedding of the stock-data-automation repository (Python) in Lean 4.

Modelling conventions, used uniformly below:
* Calendar dates are represented by their epoch-day number (`Int`): the number
  of whole days since 1970-01-01.  1970-01-01 was a Thursday, whose Python
  `date.weekday()` is 3, so the Python weekday of epoch day `d` is
  `(d + 3) % 7` (0 = Monday, ..., 6 = Sunday).  Lean's `%` on `Int` is `emod`,
  which agrees with Python's `%` for the positive modulus 7, and `/` on `Int`
  is `ediv`, which agrees with Python's floor division `//`.
* Prices (Python floats) are modelled as rationals `ℚ`; volumes as `Int`.
  Python's `round(x, 4)` (round-half-to-even at 4 decimal places) is modelled
  exactly on `ℚ` by `round4` below.
* Vendor JSON cells that can be missing or `null` are `Option`-valued.
  A Python expression that can raise (out-of-range list indexing) is modelled
  in the `Except String` monad; a `try/except` that swallows the error of a
  sub-computation is modelled by matching on the `Except` result.
* Python's stable `list.sort(key=...)` / `sorted(..., key=...)` is modelled by
  `List.insertionSort`, which is likewise a stable sort.
* `lst[-n:]` (for a literal positive `n`) is modelled by `pyLastN`;
  `lst[-days:] if len(lst) > days else lst` by `takeLastIfLonger`, including
  Python's quirk that `lst[-0:]` is the whole list.
* 'YYYY-MM-DD' date strings (Alpha Vantage keys, TA125 entries) compare
  lexicographically exactly as their day numbers compare numerically, so they
  are represented directly by the day number.
-/

set_option maxRecDepth 8000

namespace StockRepo

/-- Python `date.weekday()` of epoch day `d`: 0 = Monday, ..., 6 = Sunday. -/
def pyWeekday (d : Int) : Int := (d + 3) % 7

/-- Epoch day of a POSIX timestamp in seconds (`datetime.fromtimestamp`,
timezone abstracted to UTC). -/
def epochDay (ts : Int) : Int := ts / 86400

/-- Epoch day of a POSIX timestamp in milliseconds (Polygon.io `t` field:
`datetime.fromtimestamp(timestamp / 1000)`). -/
def epochDayMs (tms : Int) : Int := tms / 86400000

/-- From `_is_trading_day` (identical in `polygon_io_service.py` and
`yahoo_finance_service.py`): US markets Monday-Friday (weekday 0-4), TASE
Sunday-Thursday (weekday 6 or 0-3). -/
def isTradingDay (d : Int) (isUSMarket : Bool) : Bool :=
  let weekday := pyWeekday d
  if isUSMarket then decide (0 ≤ weekday ∧ weekday ≤ 4)
  else decide (weekday = 6 ∨ (0 ≤ weekday ∧ weekday ≤ 3))

/-- Python `str.endswith`, via character lists. -/
def strEndsWith (s suffix : String) : Bool := suffix.data.isSuffixOf s.data

/-- From `_is_us_market_symbol`: a symbol is US unless it ends in `.TA` or
`.TLV`. -/
def isUSMarketSymbol (symbol : String) : Bool :=
  !(strEndsWith symbol ".TA" || strEndsWith symbol ".TLV")

/-- The canonical OHLCV record produced by every normalizer
(`{symbol, date, open, high, low, close, volume}`).  The `open` field is
spelled `open_` because `open` is a Lean keyword. -/
structure Record where
  symbol : String
  date : Int
  open_ : ℚ
  high : ℚ
  low : ℚ
  close : ℚ
  volume : Int
deriving Repr, DecidableEq

/-- Comparison key used by every variant's sort: ascending date. -/
def dateLe (a b : Record) : Prop := a.date ≤ b.date

instance : DecidableRel dateLe := fun a b => inferInstanceAs (Decidable (a.date ≤ b.date))

instance : IsTotal Record dateLe := ⟨fun a b => Int.le_total a.date b.date⟩

instance : IsTrans Record dateLe := ⟨fun _ _ _ hab hbc => le_trans hab hbc⟩

/-- Python `sorted(entries, key=lambda x: x['date'])` / `.sort(key=...)`,
modelled by a stable sort on the date key. -/
def sortByDate (l : List Record) : List Record := List.insertionSort dateLe l

/-- Python `lst[-n:]` for a positive literal `n` (the whole list when shorter
than `n`). -/
def pyLastN (n : Nat) (l : List Record) : List Record := l.drop (l.length - n)

/-- Python `lst[-days:] if len(lst) > days else lst`, including the `days = 0`
quirk (`lst[-0:]` is the whole list). -/
def takeLastIfLonger (days : Nat) (l : List Record) : List Record :=
  if l.length > days then (if days = 0 then l else l.drop (l.length - days)) else l

/-- Round-half-to-even of the fraction `n / d` (`d > 0`) to an integer, the
semantics of Python `round`, phrased with integer arithmetic so that it
evaluates by kernel reduction (`n / d` is `Int` Euclidean division, whose
remainder against a positive `d` is the fractional part's numerator). -/
def roundHalfEvenInt (n : Int) (d : Nat) : Int :=
  if 2 * (n - n / (d : Int) * (d : Int)) < (d : Int) then n / (d : Int)
  else if (d : Int) < 2 * (n - n / (d : Int) * (d : Int)) then n / (d : Int) + 1
  else if Even (n / (d : Int)) then n / (d : Int) else n / (d : Int) + 1

/-- Python `round(x, 4)`: round-half-to-even at 4 decimal places
(`x * 10000` is the exact fraction `x.num * 10000 / x.den`). -/
def round4 (x : ℚ) : ℚ := mkRat (roundHalfEvenInt (x.num * 10000) x.den) 10000

/-- Reference (proof-side) formulation of round-half-to-even on rationals,
via the floor function. -/
def roundHalfEvenR (y : ℚ) : Int :=
  if y - ⌊y⌋ < 1/2 then ⌊y⌋
  else if 1/2 < y - ⌊y⌋ then ⌊y⌋ + 1
  else if Even ⌊y⌋ then ⌊y⌋ else ⌊y⌋ + 1

/-! ## Yahoo Finance service (`yahoo_finance_service.py`) -/

/-- Python list indexing `l[i]`, which raises `IndexError` out of range. -/
def idx? (l : List α) (i : Nat) : Except String α :=
  match l.get? i with
  | some a => .ok a
  | none => .error "IndexError"

/-- One iteration of the row loop of `_parse_yahoo_response` (index `i`,
timestamp `t`): evaluates `opens[i] is None or highs[i] is None or lows[i] is
None or closes[i] is None or volumes[i] is None or opens[i] <= 0 or
closes[i] <= 0` with Python's left-to-right short-circuit (each indexing can
raise `IndexError`), skipping the row (`none`) or building a `StockData`
record.  There is no per-row `try/except` in this function. -/
def yahooServiceRow (symbol : String) (opens highs lows closes : List (Option ℚ))
    (volumes : List (Option Int)) (i : Nat) (t : Int) : Except String (Option Record) :=
  match idx? opens i with
  | .error e => .error e
  | .ok none => .ok none
  | .ok (some o) =>
  match idx? highs i with
  | .error e => .error e
  | .ok none => .ok none
  | .ok (some h) =>
  match idx? lows i with
  | .error e => .error e
  | .ok none => .ok none
  | .ok (some l) =>
  match idx? closes i with
  | .error e => .error e
  | .ok none => .ok none
  | .ok (some c) =>
  match idx? volumes i with
  | .error e => .error e
  | .ok none => .ok none
  | .ok (some v) =>
  if o ≤ 0 ∨ c ≤ 0 then .ok none
  else .ok (some { symbol := symbol, date := epochDay t, open_ := o, high := h,
                   low := l, close := c, volume := v })

/-- The `for i in range(len(timestamps))` loop of `_parse_yahoo_response`; the
first raised `IndexError` aborts the whole parse. -/
def parseYahooLoop (symbol : String) (opens highs lows closes : List (Option ℚ))
    (volumes : List (Option Int)) : Nat → List Int → Except String (List Record)
  | _, [] => .ok []
  | i, t :: ts =>
    match yahooServiceRow symbol opens highs lows closes volumes i t with
    | .error e => .error e
    | .ok row =>
      match parseYahooLoop symbol opens highs lows closes volumes (i + 1) ts with
      | .error e => .error e
      | .ok rest =>
        match row with
        | none => .ok rest
        | some r => .ok (r :: rest)

/-- From `_parse_yahoo_response`: converts the parallel arrays of a Yahoo
chart payload into records.  Only `open` and `close` are checked for
positivity; `high`/`low` positivity and `high >= low` are not checked, and
array lengths are not guarded, so misaligned arrays raise `IndexError`. -/
def parseYahooResponse (symbol : String) (timestamps : List Int)
    (opens highs lows closes : List (Option ℚ)) (volumes : List (Option Int)) :
    Except String (List Record) :=
  parseYahooLoop symbol opens highs lows closes volumes 0 timestamps

/-- Trading-day filter applied by `fetch_stock_data` after parsing. -/
def yahooServiceTradingDays (symbol : String) (parsed : List Record) : List Record :=
  parsed.filter fun r => isTradingDay r.date (isUSMarketSymbol symbol)

/-- The normalization tail of `YahooFinanceService.fetch_stock_data`: parse the
arrays, filter to trading days, sort ascending by date, and keep the last
`days` entries.  An exception escaping `_parse_yahoo_response` is caught by the
enclosing `try` of `fetch_stock_data`, which returns `None`. -/
def yahooFetchNormalize (symbol : String) (days : Nat) (timestamps : List Int)
    (opens highs lows closes : List (Option ℚ)) (volumes : List (Option Int)) :
    Option (List Record) :=
  match parseYahooResponse symbol timestamps opens highs lows closes volumes with
  | .error _ => none
  | .ok parsed =>
    some (takeLastIfLonger days (sortByDate (yahooServiceTradingDays symbol parsed)))

/-- The fixed local close hour used by both last-trading-day walks: 16 (4 PM,
"US market closes at 4:00 PM ET") for US markets, 17 ("TASE closes at 5:25 PM
Israel time", hour compared only) for TASE. -/
def marketCloseHour (isUSMarket : Bool) : Int := if isUSMarket then 16 else 17

/-- Last-complete-trading-day walk of `PolygonIOService._get_last_complete_trading_day`,
as a fuel-indexed loop (the Python `while True` loop; `fuel` bounds the number
of one-day backward steps, and the termination theorem shows 8 always
suffices).  The hour never changes while walking backward
(`current -= timedelta(days=1)` keeps the time of day), and
`current.date() < now.date()` becomes `curDay < nowDay`. -/
def polygonLastTradingLoop (isUSMarket : Bool) (nowDay nowHour : Int) :
    Nat → Int → Option Int
  | 0, _ => none
  | fuel + 1, curDay =>
    if isTradingDay curDay isUSMarket then
      if nowHour ≥ marketCloseHour isUSMarket ∨ curDay < nowDay then some curDay
      else polygonLastTradingLoop isUSMarket nowDay nowHour fuel (curDay - 1)
    else polygonLastTradingLoop isUSMarket nowDay nowHour fuel (curDay - 1)

/-- From `PolygonIOService._get_last_complete_trading_day` (given the market
class of the symbol and the current day/hour). -/
def polygonGetLastCompleteTradingDay (isUSMarket : Bool) (nowDay nowHour : Int) : Option Int :=
  polygonLastTradingLoop isUSMarket nowDay nowHour 8 nowDay

/-- From `YahooFinanceService._get_last_trading_day`, whose body is
line-for-line the same loop as the Polygon variant; embedded separately so the
agreement of the two variants is a theorem rather than a definition. -/
def yahooLastTradingLoop (isUSMarket : Bool) (nowDay nowHour : Int) :
    Nat → Int → Option Int
  | 0, _ => none
  | fuel + 1, curDay =>
    if isTradingDay curDay isUSMarket then
      if nowHour ≥ marketCloseHour isUSMarket ∨ curDay < nowDay then some curDay
      else yahooLastTradingLoop isUSMarket nowDay nowHour fuel (curDay - 1)
    else yahooLastTradingLoop isUSMarket nowDay nowHour fuel (curDay - 1)

/-- From `YahooFinanceService._get_last_trading_day`. -/
def yahooGetLastTradingDay (isUSMarket : Bool) (nowDay nowHour : Int) : Option Int :=
  yahooLastTradingLoop isUSMarket nowDay nowHour 8 nowDay

/-! ## TA125 fetcher (`fetch_ta125_data.py`) -/

/-- From `get_last_trading_day_tase`: Friday maps to Thursday, Saturday to
Thursday, Sunday before 10:00 to Thursday, and every other day (Sunday from
10:00, and all of Monday-Thursday at any hour) to the current day itself. -/
def getLastTradingDayTase (nowDay nowHour : Int) : Int :=
  let weekday := pyWeekday nowDay
  if weekday = 4 then nowDay - 1
  else if weekday = 5 then nowDay - 2
  else if weekday = 6 then (if nowHour < 10 then nowDay - 3 else nowDay)
  else nowDay

/-- The fields of one Yahoo chart payload as consumed by
`process_yahoo_response`: the `chart.error` flag, whether `chart.result` is
non-empty, and the parallel arrays of `result[0]`. -/
structure YahooChart where
  chartError : Bool
  hasResult : Bool
  timestamps : List Int
  opens : List (Option ℚ)
  highs : List (Option ℚ)
  lows : List (Option ℚ)
  closes : List (Option ℚ)
  volumes : List (Option Int)

/-- One iteration of the row loop of `process_yahoo_response`
(`fetch_ta125_data.py` lines 198-229): skip the row if the index is out of
range of any array (the explicit `i >= len(...)` guards), if any cell is
`None`, or if `opens[i] <= 0 or closes[i] <= 0`; then build the entry with
values rounded to 4 decimals and keep it only when
`entry['high'] >= entry['low'] and entry['volume'] >= 0`.  The out-of-range
and `None` cases are both skips, so they are folded into one match. -/
def ta125Row (symbol : String) (opens highs lows closes : List (Option ℚ))
    (volumes : List (Option Int)) (i : Nat) (t : Int) : Option Record :=
  match opens.get? i, highs.get? i, lows.get? i, closes.get? i, volumes.get? i with
  | some (some o), some (some h), some (some l), some (some c), some (some v) =>
    if o ≤ 0 ∨ c ≤ 0 then none
    else if round4 h ≥ round4 l ∧ v ≥ 0 then
      some { symbol := symbol, date := epochDay t, open_ := round4 o,
             high := round4 h, low := round4 l, close := round4 c, volume := v }
    else none
  | _, _, _, _, _ => none

/-- The `for i, timestamp in enumerate(timestamps)` loop of
`process_yahoo_response`. -/
def ta125Loop (symbol : String) (opens highs lows closes : List (Option ℚ))
    (volumes : List (Option Int)) : Nat → List Int → List Record
  | _, [] => []
  | i, t :: ts =>
    match ta125Row symbol opens highs lows closes volumes i t with
    | some r => r :: ta125Loop symbol opens highs lows closes volumes (i + 1) ts
    | none => ta125Loop symbol opens highs lows closes volumes (i + 1) ts

/-- The `stock_data_entries` list built by `process_yahoo_response`. -/
def ta125Entries (symbol : String) (ch : YahooChart) : List Record :=
  ta125Loop symbol ch.opens ch.highs ch.lows ch.closes ch.volumes 0 ch.timestamps

/-- The `trading_days_only` filter of `process_yahoo_response`:
`weekday == 6 or weekday <= 3` (Sunday-Thursday). -/
def ta125TradingDays (symbol : String) (ch : YahooChart) : List Record :=
  (ta125Entries symbol ch).filter fun r =>
    decide (pyWeekday r.date = 6 ∨ pyWeekday r.date ≤ 3)

/-- The `sorted(trading_days_only, key=...)[-50:]` value of
`process_yahoo_response`. -/
def ta125Final (symbol : String) (ch : YahooChart) : List Record :=
  pyLastN 50 (sortByDate (ta125TradingDays symbol ch))

/-- From `process_yahoo_response`: `None` on a chart error or empty result
list, otherwise the sorted, truncated trading-day entries — but only when at
least 5 of them exist (`if len(trading_days_only) >= 5`), else `None`. -/
def processYahooResponse (symbol : String) (ch : YahooChart) : Option (List Record) :=
  if ch.chartError then none
  else if !ch.hasResult then none
  else if 5 ≤ (ta125Final symbol ch).length then some (ta125Final symbol ch) else none

/-- Outcome of one HTTP attempt: a response with a status code and a decoded
body, or a raised requests exception. -/
inductive AttemptOutcome (β : Type) where
  | response (status : Int) (body : β)
  | failure

/-- The retry loop of `fetch_yahoo_finance_data` (`for attempt in
range(max_retries)` with `max_retries = 3`): a 200 response is processed; a
503/429 response retries while `attempt < max_retries - 1` and otherwise falls
out of the loop (returning `None`); any other status returns `None`
immediately; an exception retries on the same schedule. -/
def ta125FetchLoop (symbol : String) (att : Nat → AttemptOutcome YahooChart) :
    Nat → Nat → Option (List Record)
  | _, 0 => none
  | i, n + 1 =>
    match att i with
    | .response s ch =>
      if s = 200 then processYahooResponse symbol ch
      else if s = 503 ∨ s = 429 then
        (if i < 2 then ta125FetchLoop symbol att (i + 1) n else none)
      else none
    | .failure => if i < 2 then ta125FetchLoop symbol att (i + 1) n else none

/-- From `fetch_yahoo_finance_data`, abstracting the HTTP transport into the
per-attempt outcome function `att`. -/
def fetchYahooFinanceData (symbol : String) (att : Nat → AttemptOutcome YahooChart) :
    Option (List Record) :=
  ta125FetchLoop symbol att 0 3

/-! ## Polygon.io service (`polygon_io_service.py`) -/

/-- One element of Polygon's `results` array; each field is `Option`-valued
because a missing key raises `KeyError`, which the per-row `try/except`
catches (the row is skipped). -/
structure PolygonRow where
  t : Option Int
  o : Option ℚ
  h : Option ℚ
  l : Option ℚ
  c : Option ℚ
  v : Option Int
deriving Repr, DecidableEq

/-- A decoded Polygon response body: its `status` string and its `results`
array (`none` models a missing or `null` key). -/
structure PolygonPayload where
  status : String
  results : Option (List PolygonRow)

/-- One iteration of the row loop of `_parse_polygon_response`: a missing
field skips the row (caught exception), and a row with any of
`open/high/low/close/volume <= 0` is skipped.  `high >= low` is not
checked. -/
def parsePolygonRow (symbol : String) (row : PolygonRow) : Option Record :=
  match row.t, row.o, row.h, row.l, row.c, row.v with
  | some t, some o, some h, some l, some c, some v =>
    if o ≤ 0 ∨ h ≤ 0 ∨ l ≤ 0 ∨ c ≤ 0 ∨ v ≤ 0 then none
    else some { symbol := symbol, date := epochDayMs t, open_ := o, high := h, low := l,
                close := c, volume := v }
  | _, _, _, _, _, _ => none

/-- From `_parse_polygon_response`: `[]` unless `status == 'OK'` and `results`
is present, else the valid rows in order. -/
def parsePolygonResponse (payload : PolygonPayload) (symbol : String) : List Record :=
  if payload.status ≠ "OK" ∨ payload.results = none then []
  else (payload.results.getD []).filterMap (parsePolygonRow symbol)

/-- The `trading_days_only` filter of `PolygonIOService.fetch_stock_data`. -/
def polygonTradingDays (symbol : String) (parsed : List Record) : List Record :=
  parsed.filter fun r => isTradingDay r.date (isUSMarketSymbol symbol)

/-- The normalization tail of `PolygonIOService.fetch_stock_data`: filter to
trading days, sort ascending by date, keep the last `days` entries. -/
def polygonNormalize (symbol : String) (payload : PolygonPayload) (days : Nat) :
    List Record :=
  takeLastIfLonger days (sortByDate (polygonTradingDays symbol
    (parsePolygonResponse payload symbol)))

/-- The retry loop of `PolygonIOService._execute_with_retry` (`for attempt in
range(1, MAX_RETRIES + 1)` with `MAX_RETRIES = 3`): 200 returns the response;
503/429 retries while `attempt < MAX_RETRIES` and otherwise returns the
(non-200) response itself; any other status returns the response; an
exception retries while `attempt < MAX_RETRIES` and otherwise returns
`None`. -/
def polygonRetryLoop (att : Nat → AttemptOutcome PolygonPayload) :
    Nat → Nat → Option (Int × PolygonPayload)
  | _, 0 => none
  | i, n + 1 =>
    match att i with
    | .response s b =>
      if s = 200 then some (s, b)
      else if (s = 503 ∨ s = 429) ∧ i < 3 then polygonRetryLoop att (i + 1) n
      else some (s, b)
    | .failure => if i < 3 then polygonRetryLoop att (i + 1) n else none

/-- From `PolygonIOService._execute_with_retry`. -/
def polygonExecuteWithRetry (att : Nat → AttemptOutcome PolygonPayload) :
    Option (Int × PolygonPayload) :=
  polygonRetryLoop att 1 3

/-- From `PolygonIOService.fetch_stock_data`, abstracting the HTTP transport:
`None` when the retry loop gives nothing, when the final status is not 200, or
when the body's `status`/`results` are unusable; otherwise the normalized
record list. -/
def polygonFetchStockData (symbol : String) (att : Nat → AttemptOutcome PolygonPayload)
    (days : Nat) : Option (List Record) :=
  match polygonExecuteWithRetry att with
  | none => none
  | some (s, b) =>
    if s ≠ 200 then none
    else if b.status ≠ "OK" ∨ (b.results.getD []).isEmpty then none
    else some (polygonNormalize symbol b days)

/-- The mutable rate-limiter state of `PolygonIOService`. -/
structure RateState where
  requestCount : Nat
  lastRequestTime : Option Int
deriving Repr, DecidableEq

/-- From `PolygonIOService._apply_rate_limit`, with times in whole seconds:
returns the sleeps performed (in order, in seconds) and the updated state.
`now` is the first `datetime.now()`, `nowSecond` its seconds-of-minute field,
and `now2` the second `datetime.now()` call.  Note the final branch: the
comment in the source says "wait extra 2 minutes" but the call is
`time.sleep(15)`. -/
def applyRateLimit (st : RateState) (now nowSecond now2 : Int) : List Int × RateState :=
  let count0 : Nat :=
    match st.lastRequestTime with
    | none => 0
    | some t => if now - t ≥ 60 then 0 else st.requestCount
  let step1 : List Int × Nat := if count0 ≥ 5 then ([60 - nowSecond], 0) else ([], count0)
  let sleeps2 : List Int :=
    match st.lastRequestTime with
    | some t => if now - t < 12 then [12 - (now - t)] else []
    | none => []
  let count2 := step1.2 + 1
  let step3 : List Int × Nat := if count2 ≥ 5 then ([15], 0) else ([], count2)
  (step1.1 ++ sleeps2 ++ step3.1, ⟨step3.2, some now2⟩)

/-- The inter-symbol break of `fetch_multiple_stocks_with_breaks` after the
0-based element `i` of `n` symbols: `if (i + 1) % 5 == 0 and i < len(...) - 1:
time.sleep(120)`. -/
def polygonBatchBreak (i n : Nat) : List Int :=
  if (i + 1) % 5 = 0 ∧ i < n - 1 then [120] else []

/-! ## Alpha Vantage fetcher (`fetch_sp500_data.py`) -/

/-- One `Time Series (Daily)` entry; `Option` models a missing key or a value
`float`/`int` cannot parse (the per-entry `try/except` skips the entry). -/
structure AlphaRow where
  open_ : Option ℚ
  high : Option ℚ
  low : Option ℚ
  close : Option ℚ
  volume : Option Int
deriving Repr, DecidableEq

/-- One iteration of the entry loop of `fetch_stock_data_alphavantage`: build
the record (rounded to 4 decimals) whenever all five fields parse.  No price
positivity, `high >= low`, volume or weekday check of any kind is applied. -/
def alphaRowParse (symbol : String) (date : Int) (row : AlphaRow) : Option Record :=
  match row.open_, row.high, row.low, row.close, row.volume with
  | some o, some h, some l, some c, some v =>
    some { symbol := symbol, date := date, open_ := round4 o, high := round4 h,
           low := round4 l, close := round4 c, volume := v }
  | _, _, _, _, _ => none

/-- The `stock_data_entries` list of `fetch_stock_data_alphavantage`, over the
`time_series.items()` sequence (date key, daily values). -/
def alphavantageEntries (symbol : String) (series : List (Int × AlphaRow)) : List Record :=
  series.filterMap fun p => alphaRowParse symbol p.1 p.2

/-- The `sorted(stock_data_entries, key=...)[-50:]` value returned by
`fetch_stock_data_alphavantage` on the success path. -/
def alphavantageNormalize (symbol : String) (series : List (Int × AlphaRow)) : List Record :=
  pyLastN 50 (sortByDate (alphavantageEntries symbol series))

/-- From `fetch_stock_data_alphavantage`, abstracting the HTTP call: `None` on
a non-200 status, a vendor `Error Message`/`Note`, or an empty series;
otherwise the sorted, truncated entries. -/
def fetchStockDataAlphavantage (symbol : String) (httpStatus : Int)
    (hasErrorMessage hasNote : Bool) (series : List (Int × AlphaRow)) :
    Option (List Record) :=
  if httpStatus ≠ 200 then none
  else if hasErrorMessage then none
  else if hasNote then none
  else if series.isEmpty then none
  else some (alphavantageNormalize symbol series)

/-! ## yfinance fetcher (`fetch_stock_data.py`) -/

/-- One row of the pandas DataFrame consumed by `process_stock_data`;
`Option` models NaN cells (removed by `dropna`) and missing columns. -/
structure PandasRow where
  date : Option Int
  open_ : Option ℚ
  high : Option ℚ
  low : Option ℚ
  close : Option ℚ
  volume : Option Int
deriving Repr, DecidableEq

/-- A row survives `hist.dropna()` when every cell is present. -/
def rowComplete (r : PandasRow) : Bool :=
  r.date.isSome && r.open_.isSome && r.high.isSome && r.low.isSome &&
  r.close.isSome && r.volume.isSome

/-- One iteration of the row loop of `process_stock_data`: reject the row when
`high_price < low_price or volume < 0 or any(x <= 0 for x in [open_price,
high_price, low_price, close_price])` (checked on the raw values), then store
the prices rounded to 4 decimals. -/
def yfRowParse (symbol : String) (row : PandasRow) : Option Record :=
  match row.date, row.open_, row.high, row.low, row.close, row.volume with
  | some d, some o, some h, some l, some c, some v =>
    if h < l ∨ v < 0 ∨ o ≤ 0 ∨ h ≤ 0 ∨ l ≤ 0 ∨ c ≤ 0 then none
    else some { symbol := symbol, date := d, open_ := round4 o, high := round4 h,
                low := round4 l, close := round4 c, volume := v }
  | _, _, _, _, _, _ => none

/-- The `stock_data_entries` list of `process_stock_data` (after `dropna`). -/
def processStockDataEntries (symbol : String) (hist : List PandasRow) : List Record :=
  (hist.filter rowComplete).filterMap (yfRowParse symbol)

/-- The `sorted(...)[-50:]` value of `process_stock_data`. -/
def processStockDataFinal (symbol : String) (hist : List PandasRow) : List Record :=
  pyLastN 50 (sortByDate (processStockDataEntries symbol hist))

/-- From `process_stock_data`: `None` when fewer than 5 rows survive `dropna`
or fewer than 5 valid entries remain, else the sorted, truncated entries. -/
def processStockData (symbol : String) (hist : List PandasRow) : Option (List Record) :=
  if (hist.filter rowComplete).length < 5 then none
  else if (processStockDataFinal symbol hist).length < 5 then none
  else some (processStockDataFinal symbol hist)

/-! ## Batch orchestrator (`main` of `fetch_sp500_data.py` / `fetch_ta125_data.py`,
`update_market_data` of `fetch_stock_data.py`) -/

/-- The accumulating state of one batch run: the `data` dict (insertion-ordered,
key-unique, as a Python dict), the `successful_updates` counter, and the
`failed_symbols` list. -/
structure BatchState where
  data : List (String × List Record)
  success : Nat
  failed : List String

/-- Python dict assignment `d[k] = v`: replaces the value in place when the
key exists, appends otherwise. -/
def dictInsert (k : String) (v : α) : List (String × α) → List (String × α)
  | [] => [(k, v)]
  | (k', v') :: rest => if k' = k then (k, v) :: rest else (k', v') :: dictInsert k v rest

/-- Python dict lookup `d.get(k)`. -/
def dictFind (k : String) : List (String × α) → Option α
  | [] => none
  | (k', v) :: rest => if k' = k then some v else dictFind k rest

/-- One iteration of the orchestrator loop: `if stock_data:` (truthiness, so
`None` and `[]` are both failures) stores the data and bumps the success
counter, else appends the symbol to the failure list. -/
def runBatchStep (fetch : String → Option (List Record)) (st : BatchState) (s : String) :
    BatchState :=
  match fetch s with
  | some d =>
    if d.isEmpty then { st with failed := st.failed ++ [s] }
    else { st with data := dictInsert s d st.data, success := st.success + 1 }
  | none => { st with failed := st.failed ++ [s] }

/-- The orchestrator loop over the symbol list, starting from empty output. -/
def runBatch (symbols : List String) (fetch : String → Option (List Record)) : BatchState :=
  symbols.foldl (runBatchStep fetch) ⟨[], 0, []⟩

/-- The hardcoded `SP500_SYMBOLS` list of `fetch_sp500_data.py` (lines 25-76),
verbatim; it contains duplicated tickers. -/
def SP500_SYMBOLS : List String := [
  "AAPL", "MSFT", "NVDA", "GOOGL", "GOOG", "AMZN", "META", "BRK.B", "LLY", "AVGO",
  "TSLA", "WMT", "JPM", "UNH", "XOM", "V", "ORCL", "MA", "COST", "HD",
  "NFLX", "JNJ", "BAC", "ABBV", "CRM", "KO", "CVX", "AMD", "ADBE", "MRK",
  "WFC", "LIN", "PEP", "TMO", "CSCO", "ABT", "DIS", "ACN", "INTU", "VZ",
  "TXN", "QCOM", "CMCSA", "PM", "DHR", "SPGI", "RTX", "AMAT", "HON", "CAT",
  "AXP", "MU", "UBER", "AMGN", "NEE", "T", "LOW", "BSX", "GS", "ISRG",
  "BLK", "PFE", "SYK", "BKNG", "ELV", "SCHW", "ADP", "LMT", "MDT", "GILD",
  "CB", "CI", "MMC", "C", "LRCX", "PLD", "SO", "FI", "MO", "KLAC",
  "ICE", "USB", "DUK", "SHW", "ZTS", "PGR", "AON", "CMG", "CL", "SNPS",
  "EQIX", "APH", "ITW", "MSI", "EMR", "CSX", "WM", "MCK", "PNC", "ORLY",
  "MAR", "TJX", "NOC", "MCO", "BST", "ECL", "WELL", "HCA", "CVS", "BDX",
  "ADSK", "APD", "SLB", "TGT", "CDNS", "MNST", "ROP", "COP", "ROST", "NKE",
  "CTAS", "AJG", "KMB", "AFL", "SRE", "PAYX", "FAST", "OKE", "CME", "AMT",
  "O", "AEP", "CCI", "FICO", "GWW", "VRSK", "KR", "EA", "XEL", "HLT",
  "A", "VMC", "CTSH", "AIG", "ALL", "IQV", "PRU", "GLW", "PCAR", "STZ",
  "HSY", "SPG", "PSA", "ACGL", "CARR", "EXC", "GM", "AZO", "IDXX", "GIS",
  "AMP", "CMI", "NXPI", "MCHP", "TEL", "PCG", "CPRT", "JCI", "PEG", "TROW",
  "BK", "KHC", "CNC", "ED", "PSX", "TRV", "YUM", "ON", "ANET", "ADI",
  "VRTX", "F", "BIIB", "EW", "MLM", "MPC", "DAL", "SBUX", "DXCM", "ANSS",
  "WEC", "KEYS", "AWK", "REGN", "DOW", "RMD", "RSG", "OTIS", "WBD", "FITB",
  "FDS", "FICO", "FAST", "FRT", "FDX", "FIS", "FSLR", "FE", "FTNT", "FTV",
  "FOXA", "FOX", "BEN", "FCX", "GRMN", "IT", "GE", "GEHC", "GEV", "GEN",
  "GNRC", "GD", "GM", "GPC", "GL", "GDDY", "GS", "HAL", "HIG", "HAS",
  "HCA", "HSIC", "HSY", "HES", "HPE", "HLT", "HOLX", "HD", "HON", "HRL",
  "HST", "HWM", "HPQ", "HUM", "HBAN", "HII", "IBM", "IEX", "IDXX", "INFO",
  "ITW", "ILMN", "INCY", "IR", "INTC", "ICE", "IFF", "IP", "IPG", "IQV",
  "IRM", "ISRG", "IVZ", "INVH", "IVR", "J", "JBHT", "SJM", "JNJ", "JCI",
  "JPM", "JNPR", "K", "KDP", "KEY", "KEYS", "KMB", "KIM", "KMI", "KLAC",
  "KHC", "KR", "LHX", "LH", "LRCX", "LW", "LVS", "LDOS", "LEN", "LNC",
  "LIN", "LYV", "LKQ", "LMT", "L", "LOW", "LUMN", "LYB", "MTB", "MRO",
  "MPC", "MKTX", "MAR", "MMC", "MLM", "MAS", "MA", "MTCH", "MKC", "MCD",
  "MCK", "MDT", "MRK", "META", "MET", "MTD", "MGM", "MCHP", "MU", "MSFT",
  "MAA", "MRNA", "MHK", "MOH", "TAP", "MDLZ", "MNST", "MCO", "MS", "MOS",
  "MSI", "MUR", "NDAQ", "NTAP", "NFLX", "NWL", "NEM", "NWSA", "NWS", "NEE",
  "NKE", "NI", "NDSN", "NSC", "NTRS", "NOC", "NLOK", "NCLH", "NRG", "NUE",
  "NVDA", "NVR", "NXPI", "ORLY", "OXY", "ODFL", "OMC", "ON", "OKE", "ORCL",
  "OGN", "OTIS", "PCAR", "PKG", "PANW", "PARA", "PH", "PAYX", "PAYC", "PYPL",
  "PNR", "PEP", "PFE", "PCG", "PM", "PSX", "PNW", "PXD", "PNC", "POOL",
  "PPG", "PPL", "PFG", "PG", "PGR", "PLD", "PRU", "PEG", "PTC", "PSA",
  "PHM", "QRVO", "PWR", "QCOM", "DGX", "RL", "RJF", "RTX", "O", "REG",
  "REGN", "RF", "RSG", "RMD", "RVTY", "RHI", "ROK", "ROL", "ROP", "ROST",
  "RCL", "SPGI", "CRM", "SBAC", "SLB", "STX", "SEE", "SRE", "NOW", "SHW",
  "SPG", "SWKS", "SJM", "SNA", "SEDG", "SO", "LUV", "SWK", "SBUX", "STT",
  "STLD", "STE", "SYK", "SYF", "SNPS", "SYY", "TMUS", "TROW", "TTWO", "TPG",
  "TXN", "TXT", "TMO", "TJX", "TSCO", "TT", "TDG", "TRV", "TRMB", "TFC",
  "TYL", "TSN", "USB", "UDR", "ULTA", "UNP", "UAL", "UPS", "URI", "UNH",
  "UHS", "VLO", "VTR", "VRSN", "VRSK", "VZ", "VRTX", "VFC", "VICI", "V",
  "VMC", "WAB", "WBA", "WMT", "WBD", "WM", "WAT", "WEC", "WFC", "WELL",
  "WST", "WDC", "WY", "WSM", "WMB", "WTW", "GWW", "WYNN", "XEL", "XYL",
  "YUM", "ZBRA", "ZBH", "ZTS"]

/-! ## Helper lemmas about the shared pipeline pieces -/

theorem mem_sortByDate {r : Record} {l : List Record} : r ∈ sortByDate l ↔ r ∈ l :=
  (List.perm_insertionSort dateLe l).mem_iff

theorem length_sortByDate (l : List Record) : (sortByDate l).length = l.length :=
  (List.perm_insertionSort dateLe l).length_eq

theorem sorted_sortByDate (l : List Record) : List.Sorted dateLe (sortByDate l) :=
  List.sorted_insertionSort dateLe l

theorem mem_of_mem_pyLastN {r : Record} {n : Nat} {l : List Record}
    (h : r ∈ pyLastN n l) : r ∈ l :=
  List.drop_subset _ l h

theorem mem_of_mem_takeLastIfLonger {r : Record} {n : Nat} {l : List Record}
    (h : r ∈ takeLastIfLonger n l) : r ∈ l := by
  unfold takeLastIfLonger at h
  split at h
  · split at h
    · exact h
    · exact List.drop_subset _ l h
  · exact h

theorem length_pyLastN (n : Nat) (l : List Record) :
    (pyLastN n l).length = min l.length n := by
  simp only [pyLastN, List.length_drop]
  omega

theorem length_takeLastIfLonger {n : Nat} (hn : 1 ≤ n) (l : List Record) :
    (takeLastIfLonger n l).length = min l.length n := by
  unfold takeLastIfLonger
  split
  · rw [if_neg (by omega)]
    simp only [List.length_drop]
    omega
  · omega

theorem sorted_pyLastN {n : Nat} {l : List Record} (h : List.Sorted dateLe l) :
    List.Sorted dateLe (pyLastN n l) :=
  List.Pairwise.sublist (List.drop_sublist _ _) h

theorem sorted_takeLastIfLonger {n : Nat} {l : List Record} (h : List.Sorted dateLe l) :
    List.Sorted dateLe (takeLastIfLonger n l) := by
  unfold takeLastIfLonger
  split
  · split
    · exact h
    · exact List.Pairwise.sublist (List.drop_sublist _ _) h
  · exact h

/-! ## Helper lemmas about `roundHalfEven` / `round4` -/

theorem floor_le_roundHalfEvenR (x : ℚ) : ⌊x⌋ ≤ roundHalfEvenR x := by
  unfold roundHalfEvenR
  split_ifs <;> omega

theorem roundHalfEvenR_le_floor_add_one (x : ℚ) : roundHalfEvenR x ≤ ⌊x⌋ + 1 := by
  unfold roundHalfEvenR
  split_ifs <;> omega

theorem roundHalfEvenR_mono {x y : ℚ} (hxy : x ≤ y) :
    roundHalfEvenR x ≤ roundHalfEvenR y := by
  have hf : ⌊x⌋ ≤ ⌊y⌋ := Int.floor_le_floor hxy
  rcases eq_or_lt_of_le hf with hfe | hflt
  · unfold roundHalfEvenR
    rw [← hfe]
    split_ifs with h1 h2 h3 h4 h5 h6 h7 h8 h9 <;> try omega
    all_goals linarith
  · calc roundHalfEvenR x ≤ ⌊x⌋ + 1 := roundHalfEvenR_le_floor_add_one x
      _ ≤ ⌊y⌋ := by omega
      _ ≤ roundHalfEvenR y := floor_le_roundHalfEvenR y

theorem roundHalfEvenR_nonneg {x : ℚ} (hx : 0 ≤ x) : 0 ≤ roundHalfEvenR x :=
  le_trans (Int.floor_nonneg.mpr hx) (floor_le_roundHalfEvenR x)

theorem roundHalfEvenInt_eq (n : Int) (d : Nat) (hd : 0 < d) :
    roundHalfEvenInt n d = roundHalfEvenR ((n : ℚ) / (d : ℚ)) := by
  have hdq : (0 : ℚ) < (d : ℚ) := by exact_mod_cast hd
  have hdz : (d : ℚ) ≠ 0 := ne_of_gt hdq
  have hfl : ⌊(n : ℚ) / (d : ℚ)⌋ = n / (d : Int) :=
    Rat.floor_intCast_div_natCast n d
  have hfrac : (n : ℚ) / (d : ℚ) - ((n / (d : Int) : Int) : ℚ) =
      ((n - n / (d : Int) * (d : Int) : Int) : ℚ) / (d : ℚ) := by
    push_cast
    field_simp
    ring
  unfold roundHalfEvenInt roundHalfEvenR
  rw [hfl, hfrac]
  have hiff1 : ((n - n / (d : Int) * (d : Int) : Int) : ℚ) / (d : ℚ) < 1 / 2 ↔
      2 * (n - n / (d : Int) * (d : Int)) < (d : Int) := by
    rw [div_lt_div_iff hdq (by norm_num : (0 : ℚ) < 2)]
    constructor
    · intro h
      exact_mod_cast (by linarith :
        (2 : ℚ) * ((n - n / (d : Int) * (d : Int) : Int) : ℚ) < (d : ℚ))
    · intro h
      have : (2 : ℚ) * ((n - n / (d : Int) * (d : Int) : Int) : ℚ) < (d : ℚ) := by
        exact_mod_cast h
      linarith
  have hiff2 : (1 : ℚ) / 2 < ((n - n / (d : Int) * (d : Int) : Int) : ℚ) / (d : ℚ) ↔
      (d : Int) < 2 * (n - n / (d : Int) * (d : Int)) := by
    rw [div_lt_div_iff (by norm_num : (0 : ℚ) < 2) hdq]
    constructor
    · intro h
      exact_mod_cast (by linarith :
        (d : ℚ) < (2 : ℚ) * ((n - n / (d : Int) * (d : Int) : Int) : ℚ))
    · intro h
      have : (d : ℚ) < (2 : ℚ) * ((n - n / (d : Int) * (d : Int) : Int) : ℚ) := by
        exact_mod_cast h
      linarith
  simp only [hiff1, hiff2]

theorem round4_eq (x : ℚ) : round4 x = (roundHalfEvenR (x * 10000) : ℚ) / 10000 := by
  have harg : ((x.num * 10000 : Int) : ℚ) / ((x.den : ℕ) : ℚ) = x * 10000 := by
    push_cast
    conv_rhs => rw [← Rat.num_div_den x]
    ring
  unfold round4
  rw [roundHalfEvenInt_eq _ _ x.pos, harg, Rat.mkRat_eq_divInt, Rat.divInt_eq_div]
  norm_num

theorem round4_mono {x y : ℚ} (hxy : x ≤ y) : round4 x ≤ round4 y := by
  rw [round4_eq, round4_eq]
  have h : roundHalfEvenR (x * 10000) ≤ roundHalfEvenR (y * 10000) :=
    roundHalfEvenR_mono (by linarith)
  have h' : (roundHalfEvenR (x * 10000) : ℚ) ≤ (roundHalfEvenR (y * 10000) : ℚ) := by
    exact_mod_cast h
  have h10 : (0 : ℚ) < 10000 := by norm_num
  exact (div_le_div_right h10).mpr h'

theorem round4_nonneg {x : ℚ} (hx : 0 ≤ x) : 0 ≤ round4 x := by
  rw [round4_eq]
  have h : (0 : Int) ≤ roundHalfEvenR (x * 10000) := roundHalfEvenR_nonneg (by linarith)
  have h' : (0 : ℚ) ≤ (roundHalfEvenR (x * 10000) : ℚ) := by exact_mod_cast h
  positivity

/-! ## Per-row validation lemmas -/

theorem parsePolygonRow_some {symbol : String} {row : PolygonRow} {r : Record}
    (h : parsePolygonRow symbol row = some r) :
    0 < r.open_ ∧ 0 < r.high ∧ 0 < r.low ∧ 0 < r.close ∧ 0 < r.volume := by
  rcases row with ⟨t, o, hi, lo, c, v⟩
  cases t <;> cases o <;> cases hi <;> cases lo <;> cases c <;> cases v <;>
    simp only [parsePolygonRow] at h <;> try exact Option.noConfusion h
  split_ifs at h with hc
  push_neg at hc
  obtain rfl := (Option.some.inj h).symm
  exact ⟨hc.1, hc.2.1, hc.2.2.1, hc.2.2.2.1, hc.2.2.2.2⟩

theorem yahooServiceRow_ok_some {symbol : String} {os hs ls cs : List (Option ℚ)}
    {vs : List (Option Int)} {i : Nat} {t : Int} {r : Record}
    (h : yahooServiceRow symbol os hs ls cs vs i t = .ok (some r)) :
    0 < r.open_ ∧ 0 < r.close := by
  unfold yahooServiceRow at h
  split at h <;> try exact Except.noConfusion h
  all_goals try exact Option.noConfusion (Except.ok.inj h)
  split at h <;> try exact Except.noConfusion h
  all_goals try exact Option.noConfusion (Except.ok.inj h)
  split at h <;> try exact Except.noConfusion h
  all_goals try exact Option.noConfusion (Except.ok.inj h)
  split at h <;> try exact Except.noConfusion h
  all_goals try exact Option.noConfusion (Except.ok.inj h)
  split at h <;> try exact Except.noConfusion h
  all_goals try exact Option.noConfusion (Except.ok.inj h)
  split_ifs at h with hc
  · exact Option.noConfusion (Except.ok.inj h)
  · push_neg at hc
    obtain rfl := (Option.some.inj (Except.ok.inj h)).symm
    exact ⟨hc.1, hc.2⟩

theorem parseYahooLoop_mem (symbol : String) (os hs ls cs : List (Option ℚ))
    (vs : List (Option Int)) :
    ∀ (ts : List Int) (i : Nat) (out : List Record),
      parseYahooLoop symbol os hs ls cs vs i ts = .ok out →
      ∀ r ∈ out, 0 < r.open_ ∧ 0 < r.close := by
  intro ts
  induction ts with
  | nil =>
    intro i out h r hr
    injection h with h'
    subst h'
    exact absurd hr (List.not_mem_nil r)
  | cons t ts ih =>
    intro i out h r hr
    simp only [parseYahooLoop] at h
    cases hrow : yahooServiceRow symbol os hs ls cs vs i t with
    | error e => rw [hrow] at h; exact Except.noConfusion h
    | ok row =>
      rw [hrow] at h
      cases hrest : parseYahooLoop symbol os hs ls cs vs (i + 1) ts with
      | error e => rw [hrest] at h; exact Except.noConfusion h
      | ok rest =>
        rw [hrest] at h
        cases row with
        | none =>
          injection h with h'
          subst h'
          exact ih (i + 1) _ hrest r hr
        | some r0 =>
          injection h with h'
          subst h'
          rcases List.mem_cons.mp hr with rfl | hr'
          · exact yahooServiceRow_ok_some hrow
          · exact ih (i + 1) rest hrest r hr'

theorem ta125Row_some {symbol : String} {os hs ls cs : List (Option ℚ)}
    {vs : List (Option Int)} {i : Nat} {t : Int} {r : Record}
    (h : ta125Row symbol os hs ls cs vs i t = some r) :
    r.low ≤ r.high ∧ 0 ≤ r.volume ∧ 0 ≤ r.open_ ∧ 0 ≤ r.close := by
  unfold ta125Row at h
  split at h <;> try exact Option.noConfusion h
  split_ifs at h with hc hv <;> try exact Option.noConfusion h
  obtain rfl := (Option.some.inj h).symm
  push_neg at hc
  exact ⟨hv.1, hv.2, round4_nonneg (le_of_lt hc.1), round4_nonneg (le_of_lt hc.2)⟩

theorem ta125Loop_mem (symbol : String) (os hs ls cs : List (Option ℚ))
    (vs : List (Option Int)) :
    ∀ (ts : List Int) (i : Nat) (r : Record),
      r ∈ ta125Loop symbol os hs ls cs vs i ts →
      r.low ≤ r.high ∧ 0 ≤ r.volume ∧ 0 ≤ r.open_ ∧ 0 ≤ r.close := by
  intro ts
  induction ts with
  | nil => intro i r hr; exact absurd hr (List.not_mem_nil r)
  | cons t ts ih =>
    intro i r hr
    simp only [ta125Loop] at hr
    cases hrow : ta125Row symbol os hs ls cs vs i t with
    | none => rw [hrow] at hr; exact ih (i + 1) r hr
    | some r0 =>
      rw [hrow] at hr
      rcases List.mem_cons.mp hr with rfl | hr'
      · exact ta125Row_some hrow
      · exact ih (i + 1) r hr'

theorem yfRowParse_some {symbol : String} {row : PandasRow} {r : Record}
    (h : yfRowParse symbol row = some r) :
    r.low ≤ r.high ∧ 0 ≤ r.volume ∧ 0 ≤ r.open_ ∧ 0 ≤ r.high ∧ 0 ≤ r.low ∧ 0 ≤ r.close := by
  rcases row with ⟨d, o, hi, lo, c, v⟩
  cases d <;> cases o <;> cases hi <;> cases lo <;> cases c <;> cases v <;>
    simp only [yfRowParse] at h <;> try exact Option.noConfusion h
  split_ifs at h with hc
  push_neg at hc
  obtain rfl := (Option.some.inj h).symm
  obtain ⟨hhl, hv, ho, hh, hl, hcl⟩ := hc
  refine ⟨round4_mono hhl, hv, ?_, ?_, ?_, ?_⟩
  · exact round4_nonneg (le_of_lt ho)
  · exact round4_nonneg (le_of_lt hh)
  · exact round4_nonneg (le_of_lt hl)
  · exact round4_nonneg (le_of_lt hcl)

/-! ## Claim C1 -/

/-- C1 counterexample: the Yahoo-service normalizer `_parse_yahoo_response`
retains a record whose `high` (1) is strictly below its `low` (2), because it
checks only `open` and `close`; so it is false that every record in every
normalizer's output satisfies `high ≥ low` with all four prices positive. -/
theorem claim_C1_counterexample :
    parseYahooResponse "AAPL" [259200] [some 1] [some 1] [some 2] [some 1] [some 5] =
      .ok [{ symbol := "AAPL", date := 3, open_ := 1, high := 1, low := 2, close := 1,
             volume := 5 }] ∧
    ¬ ((1 : ℚ) ≥ 2) := by
  constructor
  · rfl
  · norm_num

/-- C1 (amended): the price-field checks differ per normalizer.  The Polygon
normalizer retains a row only when all four prices and the volume are strictly
positive (it never compares `high` with `low`); the Yahoo-service normalizer
guarantees only `open > 0` and `close > 0`; the TA125 normalizer guarantees
`high ≥ low` and `volume ≥ 0` on stored (rounded) values and non-negative
stored `open`/`close`; the yfinance normalizer guarantees `high ≥ low`,
`volume ≥ 0` and non-negative stored prices; and the Alpha Vantage normalizer
applies no validation at all — it retains a record with negative prices. -/
theorem claim_C1_per_normalizer_validation :
    (∀ (symbol : String) (payload : PolygonPayload) (r : Record),
        r ∈ parsePolygonResponse payload symbol →
        0 < r.open_ ∧ 0 < r.high ∧ 0 < r.low ∧ 0 < r.close ∧ 0 < r.volume) ∧
    (∀ (symbol : String) (ts : List Int) (os hs ls cs : List (Option ℚ))
        (vs : List (Option Int)) (out : List Record) (r : Record),
        parseYahooResponse symbol ts os hs ls cs vs = .ok out → r ∈ out →
        0 < r.open_ ∧ 0 < r.close) ∧
    (∀ (symbol : String) (ch : YahooChart) (out : List Record) (r : Record),
        processYahooResponse symbol ch = some out → r ∈ out →
        r.low ≤ r.high ∧ 0 ≤ r.volume ∧ 0 ≤ r.open_ ∧ 0 ≤ r.close) ∧
    (∀ (symbol : String) (hist : List PandasRow) (out : List Record) (r : Record),
        processStockData symbol hist = some out → r ∈ out →
        r.low ≤ r.high ∧ 0 ≤ r.volume ∧
        0 ≤ r.open_ ∧ 0 ≤ r.high ∧ 0 ≤ r.low ∧ 0 ≤ r.close) ∧
    (alphavantageNormalize "X" [(2, ⟨some (-5), some (-1), some (-2), some (-3), some 7⟩)] =
      [{ symbol := "X", date := 2, open_ := -5, high := -1, low := -2, close := -3,
         volume := 7 }]) := by
  refine ⟨?_, ?_, ?_, ?_, ?_⟩
  · intro symbol payload r hr
    unfold parsePolygonResponse at hr
    split at hr
    · exact absurd hr (List.not_mem_nil r)
    · obtain ⟨row, -, hrow⟩ := List.mem_filterMap.mp hr
      exact parsePolygonRow_some hrow
  · intro symbol ts os hs ls cs vs out r h hr
    exact parseYahooLoop_mem symbol os hs ls cs vs ts 0 out h r hr
  · intro symbol ch out r h hr
    unfold processYahooResponse at h
    split_ifs at h with h1 h2 h3 <;> try exact Option.noConfusion h
    obtain rfl := (Option.some.inj h).symm
    have h4 : r ∈ sortByDate (ta125TradingDays symbol ch) :=
      mem_of_mem_pyLastN hr
    have h5 : r ∈ ta125TradingDays symbol ch := mem_sortByDate.mp h4
    have h6 : r ∈ ta125Entries symbol ch := (List.mem_filter.mp h5).1
    exact ta125Loop_mem symbol ch.opens ch.highs ch.lows ch.closes ch.volumes
      ch.timestamps 0 r h6
  · intro symbol hist out r h hr
    unfold processStockData at h
    split_ifs at h with h1 h2 <;> try exact Option.noConfusion h
    obtain rfl := (Option.some.inj h).symm
    have h4 : r ∈ sortByDate (processStockDataEntries symbol hist) :=
      mem_of_mem_pyLastN hr
    have h5 : r ∈ processStockDataEntries symbol hist := mem_sortByDate.mp h4
    obtain ⟨row, -, hrow⟩ := List.mem_filterMap.mp h5
    exact yfRowParse_some hrow
  · rfl

/-- C1 witness: the amended theorem applied at concrete inputs for each
normalizer. -/
theorem claim_C1_witness :
    (0 < ({ symbol := "AAPL", date := 1, open_ := 1, high := 3, low := 1, close := 2,
            volume := 9 } : Record).open_) ∧
    (0 < ({ symbol := "AAPL", date := 1, open_ := 1, high := 1, low := 2, close := 1,
            volume := 5 } : Record).close) ∧
    (({ symbol := "FIBI.TA", date := 3, open_ := 1, high := 1, low := 1, close := 1,
        volume := 2 } : Record).low ≤
      ({ symbol := "FIBI.TA", date := 3, open_ := 1, high := 1, low := 1, close := 1,
         volume := 2 } : Record).high) ∧
    (({ symbol := "AAPL", date := 100, open_ := 1, high := 2, low := 1, close := 1,
        volume := 3 } : Record).low ≤
      ({ symbol := "AAPL", date := 100, open_ := 1, high := 2, low := 1, close := 1,
         volume := 3 } : Record).high) := by
  have T := claim_C1_per_normalizer_validation
  refine ⟨(T.1 "AAPL" ⟨"OK", some [⟨some 86400000, some 1, some 3, some 1, some 2, some 9⟩]⟩
      _ (by decide)).1, ?_, ?_, ?_⟩
  · exact (T.2.1 "AAPL" [86400] [some 1] [some 1] [some 2] [some 1] [some 5] _ _
      rfl (by decide)).2
  · refine (T.2.2.1 "FIBI.TA"
      ⟨false, true, [259200, 345600, 432000, 518400, 604800],
        [some 1, some 1, some 1, some 1, some 1], [some 1, some 1, some 1, some 1, some 1],
        [some 1, some 1, some 1, some 1, some 1], [some 1, some 1, some 1, some 1, some 1],
        [some 2, some 2, some 2, some 2, some 2]⟩
      _ _ rfl ?_).1
    decide
  · refine (T.2.2.2.1 "AAPL"
      [⟨some 100, some 1, some 2, some 1, some 1, some 3⟩,
       ⟨some 101, some 1, some 2, some 1, some 1, some 3⟩,
       ⟨some 102, some 1, some 2, some 1, some 1, some 3⟩,
       ⟨some 103, some 1, some 2, some 1, some 1, some 3⟩,
       ⟨some 104, some 1, some 2, some 1, some 1, some 3⟩]
      _ _ rfl ?_).1
    decide

/-! ## Claim C4 -/

theorem yahooServiceRow_ok_of_lt (symbol : String) (os hs ls cs : List (Option ℚ))
    (vs : List (Option Int)) (i : Nat) (t : Int)
    (ho : i < os.length) (hh : i < hs.length) (hl : i < ls.length)
    (hc : i < cs.length) (hv : i < vs.length) :
    ∃ row, yahooServiceRow symbol os hs ls cs vs i t = .ok row := by
  obtain ⟨o, hoe⟩ : ∃ a, os.get? i = some a := ⟨os.get ⟨i, ho⟩, List.get?_eq_get ho⟩
  obtain ⟨h', hhe⟩ : ∃ a, hs.get? i = some a := ⟨hs.get ⟨i, hh⟩, List.get?_eq_get hh⟩
  obtain ⟨l', hle⟩ : ∃ a, ls.get? i = some a := ⟨ls.get ⟨i, hl⟩, List.get?_eq_get hl⟩
  obtain ⟨c', hce⟩ : ∃ a, cs.get? i = some a := ⟨cs.get ⟨i, hc⟩, List.get?_eq_get hc⟩
  obtain ⟨v', hve⟩ : ∃ a, vs.get? i = some a := ⟨vs.get ⟨i, hv⟩, List.get?_eq_get hv⟩
  simp only [yahooServiceRow, idx?, hoe, hhe, hle, hce, hve]
  cases o <;> cases h' <;> cases l' <;> cases c' <;> cases v' <;> dsimp only <;>
    first
      | exact ⟨none, rfl⟩
      | (split_ifs with hcond
         · exact ⟨none, rfl⟩
         · exact ⟨_, rfl⟩)

theorem parseYahooLoop_ok_of_aligned (symbol : String) (os hs ls cs : List (Option ℚ))
    (vs : List (Option Int)) :
    ∀ (ts : List Int) (i : Nat),
      i + ts.length ≤ os.length → i + ts.length ≤ hs.length →
      i + ts.length ≤ ls.length → i + ts.length ≤ cs.length →
      i + ts.length ≤ vs.length →
      ∃ out, parseYahooLoop symbol os hs ls cs vs i ts = .ok out := by
  intro ts
  induction ts with
  | nil => intro i _ _ _ _ _; exact ⟨[], rfl⟩
  | cons t ts ih =>
    intro i ho hh hl hc hv
    simp only [List.length_cons] at ho hh hl hc hv
    obtain ⟨row, hrow⟩ := yahooServiceRow_ok_of_lt symbol os hs ls cs vs i t
      (by omega) (by omega) (by omega) (by omega) (by omega)
    obtain ⟨rest, hrest⟩ := ih (i + 1) (by omega) (by omega) (by omega) (by omega) (by omega)
    cases row with
    | none => exact ⟨rest, by simp only [parseYahooLoop, hrow, hrest]⟩
    | some r => exact ⟨r :: rest, by simp only [parseYahooLoop, hrow, hrest]⟩

/-- C4 counterexample: on a payload with 2 timestamps but only 1 volume entry
(the other arrays aligned and valid), the Yahoo-service normalizer
`_parse_yahoo_response` raises `IndexError` instead of dropping the misaligned
entry, and the enclosing `fetch_stock_data` consequently abandons the whole
symbol (`None`) — so it is false that each response normalizer drops
misaligned entries and returns the remaining records. -/
theorem claim_C4_counterexample :
    parseYahooResponse "AAPL" [86400, 172800] [some 1, some 1] [some 2, some 2]
        [some 1, some 1] [some 1, some 1] [some 5] = .error "IndexError" ∧
    yahooFetchNormalize "AAPL" 50 [86400, 172800] [some 1, some 1] [some 2, some 2]
        [some 1, some 1] [some 1, some 1] [some 5] = none := ⟨rfl, rfl⟩

/-- C4 (amended): the TA125 normalizer `process_yahoo_response` does guard its
indices, dropping the misaligned trailing entry and returning the remaining
records (here 6 timestamps, 5 volumes: the 5 aligned records are returned);
and the Yahoo-service normalizer `_parse_yahoo_response` raises no error
whenever every parallel array is at least as long as the timestamp array.  On
misaligned arrays, however, the Yahoo-service normalizer raises `IndexError`
and its caller abandons the symbol with `None` rather than returning the
remaining records. -/
theorem claim_C4_misalignment :
    processYahooResponse "FIBI.TA"
      ⟨false, true, [259200, 345600, 432000, 518400, 604800, 864000],
       [some 1, some 1, some 1, some 1, some 1, some 1],
       [some 2, some 2, some 2, some 2, some 2, some 2],
       [some 1, some 1, some 1, some 1, some 1, some 1],
       [some 1, some 1, some 1, some 1, some 1, some 1],
       [some 5, some 5, some 5, some 5, some 5]⟩ =
      some [{ symbol := "FIBI.TA", date := 3, open_ := 1, high := 2, low := 1, close := 1,
              volume := 5 },
            { symbol := "FIBI.TA", date := 4, open_ := 1, high := 2, low := 1, close := 1,
              volume := 5 },
            { symbol := "FIBI.TA", date := 5, open_ := 1, high := 2, low := 1, close := 1,
              volume := 5 },
            { symbol := "FIBI.TA", date := 6, open_ := 1, high := 2, low := 1, close := 1,
              volume := 5 },
            { symbol := "FIBI.TA", date := 7, open_ := 1, high := 2, low := 1, close := 1,
              volume := 5 }] ∧
    (∀ (symbol : String) (ts : List Int) (os hs ls cs : List (Option ℚ))
        (vs : List (Option Int)),
        ts.length ≤ os.length → ts.length ≤ hs.length → ts.length ≤ ls.length →
        ts.length ≤ cs.length → ts.length ≤ vs.length →
        ∃ out, parseYahooResponse symbol ts os hs ls cs vs = .ok out) := by
  constructor
  · rfl
  · intro symbol ts os hs ls cs vs ho hh hl hc hv
    exact parseYahooLoop_ok_of_aligned symbol os hs ls cs vs ts 0
      (by omega) (by omega) (by omega) (by omega) (by omega)

/-- C4 witness: the amended theorem's universally quantified part applied to a
concrete aligned payload. -/
theorem claim_C4_witness :
    ∃ out, parseYahooResponse "AAPL" [86400] [some 1] [some 2] [some 1] [some 1]
      [some 5] = .ok out := by
  have T := claim_C4_misalignment
  exact T.2 "AAPL" [86400] [some 1] [some 2] [some 1] [some 1] [some 5]
    (by decide) (by decide) (by decide) (by decide) (by decide)

/-! ## Claim C5 -/

/-- C5 counterexample: the Alpha Vantage fetch variant applies no weekday
filter at all — a Saturday entry (epoch day 2, Python weekday 5) returned by
the vendor survives into the US-market output — so it is false that every
fetch variant enforces the market's trading weekday set by its own filter. -/
theorem claim_C5_counterexample :
    fetchStockDataAlphavantage "AAPL" 200 false false
        [(2, ⟨some 1, some 2, some 1, some 1, some 3⟩)] =
      some [{ symbol := "AAPL", date := 2, open_ := 1, high := 2, low := 1, close := 1,
              volume := 3 }] ∧
    pyWeekday 2 = 5 ∧
    isTradingDay 2 true = false := ⟨rfl, rfl, rfl⟩

/-- C5 (amended): the Polygon and Yahoo-service variants do re-filter every
record to the market's weekday set of the requested symbol, and the TA125
variant re-filters to Sunday-Thursday; but the Alpha Vantage and yfinance
variants apply no weekday filter of their own (the yfinance variant here
returns five Saturday records untouched). -/
theorem claim_C5_weekday_filters :
    (∀ (symbol : String) (payload : PolygonPayload) (days : Nat) (r : Record),
        r ∈ polygonNormalize symbol payload days →
        isTradingDay r.date (isUSMarketSymbol symbol) = true) ∧
    (∀ (symbol : String) (days : Nat) (ts : List Int) (os hs ls cs : List (Option ℚ))
        (vs : List (Option Int)) (out : List Record) (r : Record),
        yahooFetchNormalize symbol days ts os hs ls cs vs = some out → r ∈ out →
        isTradingDay r.date (isUSMarketSymbol symbol) = true) ∧
    (∀ (symbol : String) (ch : YahooChart) (out : List Record) (r : Record),
        processYahooResponse symbol ch = some out → r ∈ out →
        pyWeekday r.date = 6 ∨ pyWeekday r.date ≤ 3) ∧
    (processStockData "AAPL"
        [⟨some 2, some 1, some 2, some 1, some 1, some 3⟩,
         ⟨some 9, some 1, some 2, some 1, some 1, some 3⟩,
         ⟨some 16, some 1, some 2, some 1, some 1, some 3⟩,
         ⟨some 23, some 1, some 2, some 1, some 1, some 3⟩,
         ⟨some 30, some 1, some 2, some 1, some 1, some 3⟩] =
      some [{ symbol := "AAPL", date := 2, open_ := 1, high := 2, low := 1, close := 1,
              volume := 3 },
            { symbol := "AAPL", date := 9, open_ := 1, high := 2, low := 1, close := 1,
              volume := 3 },
            { symbol := "AAPL", date := 16, open_ := 1, high := 2, low := 1, close := 1,
              volume := 3 },
            { symbol := "AAPL", date := 23, open_ := 1, high := 2, low := 1, close := 1,
              volume := 3 },
            { symbol := "AAPL", date := 30, open_ := 1, high := 2, low := 1, close := 1,
              volume := 3 }] ∧
      pyWeekday 2 = 5) := by
  refine ⟨?_, ?_, ?_, rfl, rfl⟩
  · intro symbol payload days r hr
    have h1 : r ∈ sortByDate (polygonTradingDays symbol (parsePolygonResponse payload symbol)) :=
      mem_of_mem_takeLastIfLonger hr
    have h2 := mem_sortByDate.mp h1
    exact (List.mem_filter.mp h2).2
  · intro symbol days ts os hs ls cs vs out r h hr
    unfold yahooFetchNormalize at h
    split at h
    · exact Option.noConfusion h
    · obtain rfl := (Option.some.inj h).symm
      have h1 : r ∈ sortByDate (yahooServiceTradingDays symbol _) :=
        mem_of_mem_takeLastIfLonger hr
      have h2 := mem_sortByDate.mp h1
      exact (List.mem_filter.mp h2).2
  · intro symbol ch out r h hr
    unfold processYahooResponse at h
    split_ifs at h with h1 h2 h3 <;> try exact Option.noConfusion h
    obtain rfl := (Option.some.inj h).symm
    have h4 : r ∈ sortByDate (ta125TradingDays symbol ch) := mem_of_mem_pyLastN hr
    have h5 := mem_sortByDate.mp h4
    exact of_decide_eq_true (List.mem_filter.mp h5).2

/-- C5 witness: the amended theorem applied at concrete inputs for the
Polygon, Yahoo-service, and TA125 filters. -/
theorem claim_C5_witness :
    isTradingDay 1 (isUSMarketSymbol "AAPL") = true ∧
    isTradingDay 4 (isUSMarketSymbol "AAPL") = true ∧
    (pyWeekday 3 = 6 ∨ pyWeekday 3 ≤ 3) := by
  have T := claim_C5_weekday_filters
  refine ⟨?_, ?_, ?_⟩
  · exact T.1 "AAPL" ⟨"OK", some [⟨some 86400000, some 1, some 3, some 1, some 2, some 9⟩]⟩
      30 { symbol := "AAPL", date := 1, open_ := 1, high := 3, low := 1, close := 2,
           volume := 9 } (by decide)
  · exact T.2.1 "AAPL" 50 [345600] [some 1] [some 2] [some 1] [some 1] [some 5] _
      { symbol := "AAPL", date := 4, open_ := 1, high := 2, low := 1, close := 1,
        volume := 5 } rfl (by decide)
  · refine T.2.2.1 "FIBI.TA"
      ⟨false, true, [259200, 345600, 432000, 518400, 604800],
        [some 1, some 1, some 1, some 1, some 1], [some 2, some 2, some 2, some 2, some 2],
        [some 1, some 1, some 1, some 1, some 1], [some 1, some 1, some 1, some 1, some 1],
        [some 5, some 5, some 5, some 5, some 5]⟩
      _ { symbol := "FIBI.TA", date := 3, open_ := 1, high := 2, low := 1, close := 1,
          volume := 5 } rfl (by decide)

/-! ## Claim C2 -/

/-- C2 counterexample: for the TA125 Yahoo variant, when only 3 valid records
exist (fewer than the lookback 50), the fetch does not return them all — it
returns `None` (the undocumented minimum-history threshold of 5) — so it is
false that for every fetch variant fewer-than-N valid records are all
returned. -/
theorem claim_C2_counterexample :
    ta125Final "FIBI.TA"
      ⟨false, true, [259200, 345600, 432000],
       [some 1, some 1, some 1], [some 2, some 2, some 2], [some 1, some 1, some 1],
       [some 1, some 1, some 1], [some 5, some 5, some 5]⟩ =
      [{ symbol := "FIBI.TA", date := 3, open_ := 1, high := 2, low := 1, close := 1,
         volume := 5 },
       { symbol := "FIBI.TA", date := 4, open_ := 1, high := 2, low := 1, close := 1,
         volume := 5 },
       { symbol := "FIBI.TA", date := 5, open_ := 1, high := 2, low := 1, close := 1,
         volume := 5 }] ∧
    processYahooResponse "FIBI.TA"
      ⟨false, true, [259200, 345600, 432000],
       [some 1, some 1, some 1], [some 2, some 2, some 2], [some 1, some 1, some 1],
       [some 1, some 1, some 1], [some 5, some 5, some 5]⟩ = none ∧
    (3 : Nat) < 50 := ⟨rfl, rfl, by decide⟩

/-- C2 (amended): the returned per-symbol sequence is always sorted ascending
by date with length at most the requested lookback, for every variant: the
Polygon variant (for a positive requested number of days) returns exactly
`min (valid records) days` records, so fewer-than-`days` records are all
returned; the Alpha Vantage variant likewise with its fixed lookback 50; the
Yahoo-service variant, whenever it returns a sequence, returns exactly
`min (trading-day records) days` records of the successfully parsed payload;
the TA125 Yahoo variant returns a sorted sequence of length between 5 and 50
when it returns one at all and fails (returns `None`) when fewer than 5 valid
records remain; and the yfinance variant, when it returns a sequence, returns
exactly `min (valid records) 50` records (at least 5 of them), returning
`None` when fewer than 5 remain. -/
theorem claim_C2_sorted_truncated :
    (∀ (symbol : String) (payload : PolygonPayload) (days : Nat), 1 ≤ days →
        List.Sorted dateLe (polygonNormalize symbol payload days) ∧
        (polygonNormalize symbol payload days).length =
          min (polygonTradingDays symbol (parsePolygonResponse payload symbol)).length
            days) ∧
    (∀ (symbol : String) (series : List (Int × AlphaRow)),
        List.Sorted dateLe (alphavantageNormalize symbol series) ∧
        (alphavantageNormalize symbol series).length =
          min (alphavantageEntries symbol series).length 50) ∧
    (∀ (symbol : String) (ch : YahooChart) (out : List Record),
        processYahooResponse symbol ch = some out →
        List.Sorted dateLe out ∧ out.length ≤ 50 ∧ 5 ≤ out.length) ∧
    (∀ (symbol : String) (days : Nat) (ts : List Int) (os hs ls cs : List (Option ℚ))
        (vs : List (Option Int)) (out : List Record), 1 ≤ days →
        yahooFetchNormalize symbol days ts os hs ls cs vs = some out →
        List.Sorted dateLe out ∧
        ∃ parsed, parseYahooResponse symbol ts os hs ls cs vs = Except.ok parsed ∧
          out.length = min (yahooServiceTradingDays symbol parsed).length days) ∧
    (∀ (symbol : String) (hist : List PandasRow) (out : List Record),
        processStockData symbol hist = some out →
        List.Sorted dateLe out ∧
        out.length = min (processStockDataEntries symbol hist).length 50 ∧
        5 ≤ out.length) ∧
    (∀ (symbol : String) (hist : List PandasRow),
        (processStockDataFinal symbol hist).length < 5 →
        processStockData symbol hist = none) := by
  refine ⟨?_, ?_, ?_, ?_, ?_, ?_⟩
  · intro symbol payload days hdays
    constructor
    · exact sorted_takeLastIfLonger (sorted_sortByDate _)
    · rw [polygonNormalize, length_takeLastIfLonger hdays, length_sortByDate]
  · intro symbol series
    constructor
    · exact sorted_pyLastN (sorted_sortByDate _)
    · rw [alphavantageNormalize, length_pyLastN, length_sortByDate]
  · intro symbol ch out h
    unfold processYahooResponse at h
    split_ifs at h with h1 h2 h3 <;> try exact Option.noConfusion h
    obtain rfl := (Option.some.inj h).symm
    refine ⟨sorted_pyLastN (sorted_sortByDate _), ?_, h3⟩
    have := length_pyLastN 50 (sortByDate (ta125TradingDays symbol ch))
    unfold ta125Final
    omega
  · intro symbol days ts os hs ls cs vs out hdays h
    unfold yahooFetchNormalize at h
    cases hp : parseYahooResponse symbol ts os hs ls cs vs with
    | error e => rw [hp] at h; exact Option.noConfusion h
    | ok parsed =>
      rw [hp] at h
      obtain rfl := (Option.some.inj h).symm
      refine ⟨sorted_takeLastIfLonger (sorted_sortByDate _), parsed, rfl, ?_⟩
      rw [length_takeLastIfLonger hdays, length_sortByDate]
  · intro symbol hist out h
    unfold processStockData at h
    split_ifs at h with h1 h2 <;> try exact Option.noConfusion h
    obtain rfl := (Option.some.inj h).symm
    refine ⟨sorted_pyLastN (sorted_sortByDate _), ?_, by omega⟩
    rw [processStockDataFinal, length_pyLastN, length_sortByDate]
  · intro symbol hist hlen
    unfold processStockData
    by_cases h1 : (hist.filter rowComplete).length < 5
    · rw [if_pos h1]
    · rw [if_neg h1, if_pos hlen]

/-- C2 witness: the amended theorem applied at concrete inputs for each of the
five variants. -/
theorem claim_C2_witness :
    List.Sorted dateLe (polygonNormalize "AAPL"
      ⟨"OK", some [⟨some 86400000, some 1, some 3, some 1, some 2, some 9⟩]⟩ 30) ∧
    (alphavantageNormalize "AAPL" [(1, ⟨some 1, some 2, some 1, some 1, some 3⟩)]).length =
      min (alphavantageEntries "AAPL"
        [(1, ⟨some 1, some 2, some 1, some 1, some 3⟩)]).length 50 ∧
    List.Sorted dateLe
      [{ symbol := "FIBI.TA", date := 3, open_ := 1, high := 2, low := 1, close := 1,
         volume := 5 },
       { symbol := "FIBI.TA", date := 4, open_ := 1, high := 2, low := 1, close := 1,
         volume := 5 },
       { symbol := "FIBI.TA", date := 5, open_ := 1, high := 2, low := 1, close := 1,
         volume := 5 },
       { symbol := "FIBI.TA", date := 6, open_ := 1, high := 2, low := 1, close := 1,
         volume := 5 },
       { symbol := "FIBI.TA", date := 7, open_ := 1, high := 2, low := 1, close := 1,
         volume := 5 }] ∧
    List.Sorted dateLe
      [{ symbol := "AAPL", date := 4, open_ := 1, high := 2, low := 1, close := 1,
         volume := 5 }] ∧
    ([{ symbol := "AAPL", date := 200, open_ := 1, high := 2, low := 1, close := 1,
        volume := 3 },
      { symbol := "AAPL", date := 201, open_ := 1, high := 2, low := 1, close := 1,
        volume := 3 },
      { symbol := "AAPL", date := 202, open_ := 1, high := 2, low := 1, close := 1,
        volume := 3 },
      { symbol := "AAPL", date := 203, open_ := 1, high := 2, low := 1, close := 1,
        volume := 3 },
      { symbol := "AAPL", date := 204, open_ := 1, high := 2, low := 1, close := 1,
        volume := 3 }] : List Record).length =
      min (processStockDataEntries "AAPL"
        [⟨some 200, some 1, some 2, some 1, some 1, some 3⟩,
         ⟨some 201, some 1, some 2, some 1, some 1, some 3⟩,
         ⟨some 202, some 1, some 2, some 1, some 1, some 3⟩,
         ⟨some 203, some 1, some 2, some 1, some 1, some 3⟩,
         ⟨some 204, some 1, some 2, some 1, some 1, some 3⟩]).length 50 ∧
    processStockData "AAPL"
      [⟨some 50, some 1, some 2, some 1, some 1, some 3⟩,
       ⟨some 51, some 1, some 2, some 1, some 1, some 3⟩] = none := by
  have T := claim_C2_sorted_truncated
  refine ⟨(T.1 "AAPL" _ 30 (by decide)).1, (T.2.1 "AAPL" _).2, ?_, ?_, ?_, ?_⟩
  · exact (T.2.2.1 "FIBI.TA"
      ⟨false, true, [259200, 345600, 432000, 518400, 604800],
        [some 1, some 1, some 1, some 1, some 1], [some 2, some 2, some 2, some 2, some 2],
        [some 1, some 1, some 1, some 1, some 1], [some 1, some 1, some 1, some 1, some 1],
        [some 5, some 5, some 5, some 5, some 5]⟩
      _ rfl).1
  · exact (T.2.2.2.1 "AAPL" 50 [345600] [some 1] [some 2] [some 1] [some 1] [some 5]
      _ (by decide) rfl).1
  · exact (T.2.2.2.2.1 "AAPL"
      [⟨some 200, some 1, some 2, some 1, some 1, some 3⟩,
       ⟨some 201, some 1, some 2, some 1, some 1, some 3⟩,
       ⟨some 202, some 1, some 2, some 1, some 1, some 3⟩,
       ⟨some 203, some 1, some 2, some 1, some 1, some 3⟩,
       ⟨some 204, some 1, some 2, some 1, some 1, some 3⟩] _ rfl).2.1
  · exact T.2.2.2.2.2 "AAPL"
      [⟨some 50, some 1, some 2, some 1, some 1, some 3⟩,
       ⟨some 51, some 1, some 2, some 1, some 1, some 3⟩] (by decide)

/-! ## Claim C8 -/

/-- C8: both the TA125 Yahoo variant and the yfinance variant treat a
normalized result with fewer than 5 records as a failure and return `None`,
even when 1 to 4 valid records exist. -/
theorem claim_C8_minimum_history_threshold :
    (∀ (symbol : String) (ch : YahooChart),
        (ta125Final symbol ch).length < 5 →
        processYahooResponse symbol ch = none) ∧
    (∀ (symbol : String) (hist : List PandasRow),
        (processStockDataFinal symbol hist).length < 5 →
        processStockData symbol hist = none) := by
  constructor
  · intro symbol ch hlen
    unfold processYahooResponse
    split_ifs with h1 h2 h3
    · rfl
    · rfl
    · omega
    · rfl
  · intro symbol hist hlen
    unfold processStockData
    by_cases h1 : (hist.filter rowComplete).length < 5
    · rw [if_pos h1]
    · rw [if_neg h1, if_pos hlen]

/-- C8 witness: with exactly 2 valid records each, both variants return
`None`. -/
theorem claim_C8_witness :
    processYahooResponse "FIBI.TA"
      ⟨false, true, [259200, 345600], [some 1, some 1], [some 2, some 2],
       [some 1, some 1], [some 1, some 1], [some 5, some 5]⟩ = none ∧
    processStockData "AAPL"
      [⟨some 2, some 1, some 2, some 1, some 1, some 3⟩,
       ⟨some 9, some 1, some 2, some 1, some 1, some 3⟩] = none := by
  have T := claim_C8_minimum_history_threshold
  exact ⟨T.1 "FIBI.TA" _ (by decide), T.2 "AAPL" _ (by decide)⟩

/-! ## Claim C3 -/

theorem runBatchStep_failed_sub (fetch : String → Option (List Record))
    (st : BatchState) (s : String) : st.failed ⊆ (runBatchStep fetch st s).failed := by
  intro x hx
  unfold runBatchStep
  split
  · split
    · exact List.mem_append_left _ hx
    · exact hx
  · exact List.mem_append_left _ hx

theorem foldl_batch_failed_sub (fetch : String → Option (List Record)) :
    ∀ (l : List String) (st : BatchState),
      st.failed ⊆ (List.foldl (runBatchStep fetch) st l).failed := by
  intro l
  induction l with
  | nil => intro st x hx; exact hx
  | cons a l ih =>
    intro st x hx
    exact ih (runBatchStep fetch st a) (runBatchStep_failed_sub fetch st a hx)

theorem mem_failed_of_fetch_none (fetch : String → Option (List Record)) (s : String)
    (hf : fetch s = none) :
    ∀ (l : List String) (st : BatchState), s ∈ l →
      s ∈ (List.foldl (runBatchStep fetch) st l).failed := by
  intro l
  induction l with
  | nil => intro st hs; exact absurd hs (List.not_mem_nil s)
  | cons a l ih =>
    intro st hs
    rcases List.mem_cons.mp hs with rfl | hs'
    · rw [List.foldl_cons]
      apply foldl_batch_failed_sub
      unfold runBatchStep
      rw [hf]
      exact List.mem_append_right _ (List.mem_singleton.mpr rfl)
    · exact ih (runBatchStep fetch st a) hs'

theorem dictFind_dictInsert_ne {α : Type} (k k' : String) (v : α)
    (d : List (String × α)) (h : k' ≠ k) :
    dictFind k (dictInsert k' v d) = dictFind k d := by
  induction d with
  | nil => simp only [dictInsert, dictFind, if_neg h]
  | cons p d ih =>
    obtain ⟨pk, pv⟩ := p
    by_cases hpk : pk = k'
    · subst hpk
      simp only [dictInsert, if_pos rfl, dictFind, if_neg h]
    · simp only [dictInsert, if_neg hpk, dictFind]
      split
      · rfl
      · exact ih

theorem dictFind_runBatchStep (fetch : String → Option (List Record))
    (st : BatchState) (a s : String) (hf : fetch s = none) :
    dictFind s (runBatchStep fetch st a).data = dictFind s st.data := by
  unfold runBatchStep
  cases ha : fetch a with
  | none => rfl
  | some d =>
    dsimp only
    split
    · rfl
    · have hne : a ≠ s := by
        intro hcontra
        rw [hcontra, hf] at ha
        exact Option.noConfusion ha
      exact dictFind_dictInsert_ne s a d st.data hne

theorem dictFind_none_of_fetch_none (fetch : String → Option (List Record)) (s : String)
    (hf : fetch s = none) :
    ∀ (l : List String) (st : BatchState), dictFind s st.data = none →
      dictFind s (List.foldl (runBatchStep fetch) st l).data = none := by
  intro l
  induction l with
  | nil => intro st h; exact h
  | cons a l ih =>
    intro st h
    apply ih
    rw [dictFind_runBatchStep fetch st a s hf]
    exact h

/-- C3: when every HTTP attempt yields status 429, the Polygon retry loop
hands back the final 429 response (not an exception) and the Polygon adapter
`fetch_stock_data` returns `None`; the TA125 Yahoo adapter's retry loop
likewise returns `None`; and the batch orchestrator records any symbol whose
fetch returned `None` in `failed_symbols` while omitting it from the success
`data` map. -/
theorem claim_C3_429_retry_exhaustion :
    (∀ (symbol : String) (days : Nat) (att : Nat → AttemptOutcome PolygonPayload)
        (bodies : Nat → PolygonPayload),
        (∀ i, att i = .response 429 (bodies i)) →
        polygonExecuteWithRetry att = some (429, bodies 3) ∧
        polygonFetchStockData symbol att days = none) ∧
    (∀ (symbol : String) (att : Nat → AttemptOutcome YahooChart)
        (bodies : Nat → YahooChart),
        (∀ i, att i = .response 429 (bodies i)) →
        fetchYahooFinanceData symbol att = none) ∧
    (∀ (symbols : List String) (fetch : String → Option (List Record)) (s : String),
        s ∈ symbols → fetch s = none →
        s ∈ (runBatch symbols fetch).failed ∧
        dictFind s (runBatch symbols fetch).data = none) := by
  refine ⟨?_, ?_, ?_⟩
  · intro symbol days att bodies hall
    have s3 : polygonRetryLoop att 3 1 = some (429, bodies 3) := by
      unfold polygonRetryLoop
      rw [hall 3]
      dsimp only
      rw [if_neg (by norm_num : ¬(429 : Int) = 200),
        if_neg (by norm_num : ¬(((429 : Int) = 503 ∨ (429 : Int) = 429) ∧ 3 < 3))]
    have s2 : polygonRetryLoop att 2 2 = some (429, bodies 3) := by
      unfold polygonRetryLoop
      rw [hall 2]
      dsimp only
      rw [if_neg (by norm_num : ¬(429 : Int) = 200),
        if_pos (by norm_num : ((429 : Int) = 503 ∨ (429 : Int) = 429) ∧ 2 < 3)]
      exact s3
    have hretry : polygonExecuteWithRetry att = some (429, bodies 3) := by
      unfold polygonExecuteWithRetry polygonRetryLoop
      rw [hall 1]
      dsimp only
      rw [if_neg (by norm_num : ¬(429 : Int) = 200),
        if_pos (by norm_num : ((429 : Int) = 503 ∨ (429 : Int) = 429) ∧ 1 < 3)]
      exact s2
    refine ⟨hretry, ?_⟩
    unfold polygonFetchStockData
    rw [hretry]
    norm_num
  · intro symbol att bodies hall
    have t2 : ta125FetchLoop symbol att 2 1 = none := by
      unfold ta125FetchLoop
      rw [hall 2]
      dsimp only
      rw [if_neg (by norm_num : ¬(429 : Int) = 200),
        if_pos (by norm_num : (429 : Int) = 503 ∨ (429 : Int) = 429),
        if_neg (by norm_num : ¬(2 : Nat) < 2)]
    have t1 : ta125FetchLoop symbol att 1 2 = none := by
      unfold ta125FetchLoop
      rw [hall 1]
      dsimp only
      rw [if_neg (by norm_num : ¬(429 : Int) = 200),
        if_pos (by norm_num : (429 : Int) = 503 ∨ (429 : Int) = 429),
        if_pos (by norm_num : (1 : Nat) < 2)]
      exact t2
    unfold fetchYahooFinanceData ta125FetchLoop
    rw [hall 0]
    dsimp only
    rw [if_neg (by norm_num : ¬(429 : Int) = 200),
      if_pos (by norm_num : (429 : Int) = 503 ∨ (429 : Int) = 429),
      if_pos (by norm_num : (0 : Nat) < 2)]
    exact t1
  · intro symbols fetch s hs hf
    constructor
    · exact mem_failed_of_fetch_none fetch s hf symbols ⟨[], 0, []⟩ hs
    · exact dictFind_none_of_fetch_none fetch s hf symbols ⟨[], 0, []⟩ rfl

/-- C3 witness: the theorem applied to an always-429 transport and a
one-symbol batch whose fetch fails. -/
theorem claim_C3_witness :
    polygonFetchStockData "AAPL" (fun _ => .response 429 ⟨"ERROR", none⟩) 30 = none ∧
    fetchYahooFinanceData "FIBI.TA"
      (fun _ => .response 429 ⟨false, false, [], [], [], [], [], []⟩) = none ∧
    "AAPL" ∈ (runBatch ["AAPL"] (fun _ => none)).failed ∧
    dictFind "AAPL" (runBatch ["AAPL"] (fun _ => none)).data = none := by
  have T := claim_C3_429_retry_exhaustion
  refine ⟨(T.1 "AAPL" 30 _ (fun _ => ⟨"ERROR", none⟩) (fun i => rfl)).2, ?_, ?_, ?_⟩
  · exact T.2.1 "FIBI.TA" _ (fun _ => ⟨false, false, [], [], [], [], [], []⟩) (fun i => rfl)
  · exact (T.2.2 ["AAPL"] (fun _ => none) "AAPL" (by decide) rfl).1
  · exact (T.2.2 ["AAPL"] (fun _ => none) "AAPL" (by decide) rfl).2

/-! ## Claim C9 -/

theorem runBatch_count (fetch : String → Option (List Record)) :
    ∀ (l : List String) (st : BatchState),
      (List.foldl (runBatchStep fetch) st l).success +
        (List.foldl (runBatchStep fetch) st l).failed.length =
      st.success + st.failed.length + l.length := by
  intro l
  induction l with
  | nil => intro st; simp
  | cons a l ih =>
    intro st
    rw [List.foldl_cons, ih]
    unfold runBatchStep
    split
    · split
      · dsimp only
        simp only [List.length_append, List.length_cons, List.length_singleton,
          List.length_nil]
        omega
      · dsimp only
        simp only [List.length_cons]
        omega
    · dsimp only
      simp only [List.length_append, List.length_cons, List.length_singleton,
        List.length_nil]
      omega

theorem runBatch_success_all (fetch : String → Option (List Record))
    (hall : ∀ s, ∃ d, fetch s = some d ∧ d.isEmpty = false) :
    ∀ (l : List String) (st : BatchState),
      (List.foldl (runBatchStep fetch) st l).success = st.success + l.length := by
  intro l
  induction l with
  | nil => intro st; simp
  | cons a l ih =>
    intro st
    rw [List.foldl_cons, ih]
    obtain ⟨d, hd, hne⟩ := hall a
    unfold runBatchStep
    rw [hd]
    dsimp only
    rw [if_neg (by rw [hne]; exact Bool.false_ne_true)]
    dsimp only
    simp only [List.length_cons]
    omega

theorem mem_keys_dictInsert {α : Type} (k x : String) (v : α) (d : List (String × α)) :
    x ∈ (dictInsert k v d).map Prod.fst → x = k ∨ x ∈ d.map Prod.fst := by
  induction d with
  | nil =>
    intro hx
    simp only [dictInsert, List.map_cons, List.map_nil] at hx
    rcases List.mem_cons.mp hx with h | h
    · exact Or.inl h
    · exact absurd h (List.not_mem_nil x)
  | cons p d ih =>
    obtain ⟨pk, pv⟩ := p
    intro hx
    unfold dictInsert at hx
    split at hx
    · next heq =>
      simp only [List.map_cons] at hx
      rcases List.mem_cons.mp hx with h | h
      · exact Or.inl h
      · exact Or.inr (by simp only [List.map_cons]; exact List.mem_cons_of_mem _ h)
    · simp only [List.map_cons] at hx
      rcases List.mem_cons.mp hx with h | h
      · exact Or.inr (by simp only [List.map_cons]; exact h ▸ List.mem_cons_self pk _)
      · rcases ih h with h' | h'
        · exact Or.inl h'
        · exact Or.inr (by simp only [List.map_cons]; exact List.mem_cons_of_mem _ h')

theorem keys_dictInsert_nodup {α : Type} (k : String) (v : α) (d : List (String × α))
    (h : (d.map Prod.fst).Nodup) : ((dictInsert k v d).map Prod.fst).Nodup := by
  induction d with
  | nil => simp [dictInsert]
  | cons p d ih =>
    obtain ⟨pk, pv⟩ := p
    simp only [List.map_cons, List.nodup_cons] at h
    unfold dictInsert
    split
    · next heq =>
      simp only [List.map_cons, List.nodup_cons]
      exact ⟨heq ▸ h.1, h.2⟩
    · next hne =>
      simp only [List.map_cons, List.nodup_cons]
      refine ⟨?_, ih h.2⟩
      intro hx
      rcases mem_keys_dictInsert k pk v d hx with h' | h'
      · exact hne h'
      · exact h.1 h'

theorem runBatch_keys_invariant (fetch : String → Option (List Record)) :
    ∀ (l : List String) (st : BatchState),
      ((st.data.map Prod.fst).Nodup →
        (((List.foldl (runBatchStep fetch) st l).data.map Prod.fst).Nodup)) ∧
      (∀ x, x ∈ (List.foldl (runBatchStep fetch) st l).data.map Prod.fst →
        x ∈ st.data.map Prod.fst ∨ x ∈ l) := by
  intro l
  induction l with
  | nil =>
    intro st
    exact ⟨fun h => h, fun x hx => Or.inl hx⟩
  | cons a l ih =>
    intro st
    have hstep_keys : ∀ x, x ∈ (runBatchStep fetch st a).data.map Prod.fst →
        x = a ∨ x ∈ st.data.map Prod.fst := by
      intro x hx
      unfold runBatchStep at hx
      split at hx
      · split at hx
        · exact Or.inr hx
        · exact mem_keys_dictInsert a x _ st.data hx
      · exact Or.inr hx
    have hstep_nodup : (st.data.map Prod.fst).Nodup →
        ((runBatchStep fetch st a).data.map Prod.fst).Nodup := by
      intro h
      unfold runBatchStep
      split
      · split
        · exact h
        · exact keys_dictInsert_nodup a _ st.data h
      · exact h
    constructor
    · intro h
      rw [List.foldl_cons]
      exact (ih (runBatchStep fetch st a)).1 (hstep_nodup h)
    · intro x hx
      rw [List.foldl_cons] at hx
      rcases (ih (runBatchStep fetch st a)).2 x hx with h | h
      · rcases hstep_keys x h with h' | h'
        · exact Or.inr (h' ▸ List.mem_cons_self a l)
        · exact Or.inl h'
      · exact Or.inr (List.mem_cons_of_mem a h)

theorem dedup_length_lt_of_not_nodup {l : List String} (h : ¬l.Nodup) :
    l.dedup.length < l.length := by
  have hsub := List.dedup_sublist l
  rcases lt_or_eq_of_le hsub.length_le with hlt | heq
  · exact hlt
  · exact absurd (hsub.eq_of_length heq ▸ List.nodup_dedup l) h

/-- C9: every orchestrator iteration increments exactly one of the success
counter or the failure list, so `successful_symbols + |failed_symbols| =
total_symbols` with duplicates counted per occurrence; the hardcoded
`SP500_SYMBOLS` list does contain a duplicate (`"FICO"` at positions 133 and
201); and on any duplicated list whose fetches all succeed, the success
counter strictly exceeds the number of keys in the `data` map. -/
theorem claim_C9_batch_counters :
    (∀ (symbols : List String) (fetch : String → Option (List Record)),
        (runBatch symbols fetch).success + (runBatch symbols fetch).failed.length =
          symbols.length) ∧
    (¬ SP500_SYMBOLS.Nodup) ∧
    (∀ (symbols : List String) (fetch : String → Option (List Record)),
        (∀ s, ∃ d, fetch s = some d ∧ d.isEmpty = false) → ¬symbols.Nodup →
        (runBatch symbols fetch).data.length < (runBatch symbols fetch).success) := by
  refine ⟨?_, ?_, ?_⟩
  · intro symbols fetch
    have := runBatch_count fetch symbols ⟨[], 0, []⟩
    simpa [runBatch] using this
  · intro h
    have hinj := List.nodup_iff_injective_get.mp h
    have h1 : SP500_SYMBOLS.get ⟨133, by decide⟩ = "FICO" := rfl
    have h2 : SP500_SYMBOLS.get ⟨201, by decide⟩ = "FICO" := rfl
    have heq := hinj (h1.trans h2.symm)
    have hval : (133 : Nat) = 201 := congrArg Fin.val heq
    exact absurd hval (by decide)
  · intro symbols fetch hall hnd
    have hsucc : (runBatch symbols fetch).success = symbols.length := by
      have := runBatch_success_all fetch hall symbols ⟨[], 0, []⟩
      simpa [runBatch] using this
    have hkeys := runBatch_keys_invariant fetch symbols ⟨[], 0, []⟩
    have hnodup : (((runBatch symbols fetch).data.map Prod.fst)).Nodup :=
      hkeys.1 (by simp)
    have hsub : ∀ x, x ∈ (runBatch symbols fetch).data.map Prod.fst → x ∈ symbols := by
      intro x hx
      rcases hkeys.2 x hx with h | h
      · simp at h
      · exact h
    have hlen : (runBatch symbols fetch).data.length =
        ((runBatch symbols fetch).data.map Prod.fst).length := (List.length_map _ _).symm
    have hcard : ((runBatch symbols fetch).data.map Prod.fst).length ≤
        symbols.dedup.length := by
      rw [← List.toFinset_card_of_nodup hnodup, ← List.card_toFinset]
      apply Finset.card_le_card
      intro x hx
      rw [List.mem_toFinset] at hx ⊢
      exact hsub x hx
    have hdedup := dedup_length_lt_of_not_nodup hnd
    omega

/-- C9 witness: the theorem applied to a concrete batch, and to a two-element
duplicated list whose fetch always succeeds. -/
theorem claim_C9_witness :
    (runBatch ["AAPL", "MSFT"] (fun _ => none)).success +
      (runBatch ["AAPL", "MSFT"] (fun _ => none)).failed.length = 2 ∧
    (runBatch ["FICO", "FICO"]
        (fun _ => some [{ symbol := "FICO", date := 1, open_ := 1, high := 1, low := 1,
                          close := 1, volume := 1 }])).data.length <
      (runBatch ["FICO", "FICO"]
        (fun _ => some [{ symbol := "FICO", date := 1, open_ := 1, high := 1, low := 1,
                          close := 1, volume := 1 }])).success := by
  have T := claim_C9_batch_counters
  constructor
  · exact T.1 ["AAPL", "MSFT"] (fun _ => none)
  · exact T.2.2 ["FICO", "FICO"] _ (fun s => ⟨_, rfl, rfl⟩) (by decide)

/-! ## Claims C6 and C10 -/

theorem lastTradingLoop_le (isUSMarket : Bool) (nowDay nowHour : Int) :
    ∀ (fuel : Nat) (curDay d : Int),
      polygonLastTradingLoop isUSMarket nowDay nowHour fuel curDay = some d →
      d ≤ curDay ∧ isTradingDay d isUSMarket = true := by
  intro fuel
  induction fuel with
  | zero => intro curDay d h; exact Option.noConfusion h
  | succ n ih =>
    intro curDay d h
    rw [polygonLastTradingLoop] at h
    split_ifs at h with h1 h2
    · obtain rfl := Option.some.inj h
      exact ⟨le_refl _, h1⟩
    · obtain ⟨hle, ht⟩ := ih _ _ h
      exact ⟨by omega, ht⟩
    · obtain ⟨hle, ht⟩ := ih _ _ h
      exact ⟨by omega, ht⟩

theorem trading_gap_two (isUSMarket : Bool) (curDay : Int)
    (h1 : isTradingDay curDay isUSMarket = false)
    (h2 : isTradingDay (curDay - 1) isUSMarket = false) :
    isTradingDay (curDay - 2) isUSMarket = true := by
  cases isUSMarket <;>
    simp [isTradingDay, pyWeekday, decide_eq_false_iff_not, decide_eq_true_eq]
      at h1 h2 ⊢ <;>
    omega

theorem lastTradingLoop_some_of_lt (isUSMarket : Bool) (nowDay nowHour : Int) :
    ∀ (fuel : Nat), 3 ≤ fuel → ∀ (curDay : Int), curDay < nowDay →
      ∃ d, polygonLastTradingLoop isUSMarket nowDay nowHour fuel curDay = some d ∧
        d < nowDay := by
  intro fuel hfuel curDay hlt
  obtain ⟨k, rfl⟩ : ∃ k, fuel = (k + 2) + 1 := ⟨fuel - 3, by omega⟩
  cases h1 : isTradingDay curDay isUSMarket with
  | true =>
    refine ⟨curDay, ?_, hlt⟩
    rw [polygonLastTradingLoop, if_pos h1, if_pos (Or.inr hlt)]
  | false =>
    rw [polygonLastTradingLoop, if_neg (by rw [h1]; exact Bool.false_ne_true)]
    cases h2 : isTradingDay (curDay - 1) isUSMarket with
    | true =>
      refine ⟨curDay - 1, ?_, by omega⟩
      rw [polygonLastTradingLoop, if_pos h2, if_pos (Or.inr (by omega))]
    | false =>
      rw [polygonLastTradingLoop, if_neg (by rw [h2]; exact Bool.false_ne_true)]
      have h3 : isTradingDay (curDay - 1 - 1) isUSMarket = true := by
        rw [show curDay - 1 - 1 = curDay - 2 from by ring]
        exact trading_gap_two isUSMarket curDay h1 h2
      refine ⟨curDay - 1 - 1, ?_, by omega⟩
      rw [polygonLastTradingLoop, if_pos h3, if_pos (Or.inr (by omega))]

theorem polygonGet_spec (isUSMarket : Bool) (nowDay nowHour : Int) :
    ∃ d, polygonGetLastCompleteTradingDay isUSMarket nowDay nowHour = some d ∧
      isTradingDay d isUSMarket = true ∧
      (nowHour < marketCloseHour isUSMarket → d < nowDay) := by
  unfold polygonGetLastCompleteTradingDay
  cases h1 : isTradingDay nowDay isUSMarket with
  | true =>
    by_cases hc : nowHour ≥ marketCloseHour isUSMarket
    · refine ⟨nowDay, ?_, h1, fun hlt => absurd hc (not_le.mpr hlt)⟩
      rw [polygonLastTradingLoop, if_pos h1, if_pos (Or.inl hc)]
    · rw [polygonLastTradingLoop, if_pos h1,
        if_neg (by push_neg; exact ⟨not_le.mp hc, le_refl _⟩)]
      obtain ⟨d, hd, hdlt⟩ := lastTradingLoop_some_of_lt isUSMarket nowDay nowHour 7
        (by omega) (nowDay - 1) (by omega)
      exact ⟨d, hd, (lastTradingLoop_le isUSMarket nowDay nowHour 7 _ d hd).2,
        fun _ => hdlt⟩
  | false =>
    rw [polygonLastTradingLoop, if_neg (by rw [h1]; exact Bool.false_ne_true)]
    obtain ⟨d, hd, hdlt⟩ := lastTradingLoop_some_of_lt isUSMarket nowDay nowHour 7
      (by omega) (nowDay - 1) (by omega)
    exact ⟨d, hd, (lastTradingLoop_le isUSMarket nowDay nowHour 7 _ d hd).2,
      fun _ => hdlt⟩

theorem yahoo_polygon_loop_agree (isUSMarket : Bool) (nowDay nowHour : Int) :
    ∀ (fuel : Nat) (curDay : Int),
      yahooLastTradingLoop isUSMarket nowDay nowHour fuel curDay =
        polygonLastTradingLoop isUSMarket nowDay nowHour fuel curDay := by
  intro fuel
  induction fuel with
  | zero => intro curDay; rfl
  | succ n ih =>
    intro curDay
    rw [yahooLastTradingLoop, polygonLastTradingLoop]
    split_ifs <;> first | rfl | exact ih _

/-- C6 counterexample: on a Monday (epoch day 4) at 08:00 — before the 17:00
TASE close — the TA125 variant `get_last_trading_day_tase` returns the current
day itself, not a strictly earlier day, while the Polygon variant for the same
instant returns the previous day (Sunday, epoch day 3); so the claim that
every variant rolls back before the close hour and that all variants agree is
false. -/
theorem claim_C6_counterexample :
    getLastTradingDayTase 4 8 = 4 ∧
    pyWeekday 4 = 0 ∧
    (8 : Int) < 17 ∧
    polygonGetLastCompleteTradingDay false 4 8 = some 3 ∧
    ¬ (4 : Int) = 3 := by
  refine ⟨rfl, rfl, by norm_num, by decide, by norm_num⟩

/-- C6 (amended): the Polygon walk always lands on a trading day of the
requested market and, whenever the current hour is before the market's fixed
close hour, on a day strictly before today; the Yahoo-service walk computes
exactly the same function; the TA125 variant also always lands on a TASE
trading day (Sunday-Thursday), but it is a different function: on
Monday-Thursday it returns the current day regardless of the hour (and its
only hour cutoff is 10:00 on Sunday), so the variants can disagree. -/
theorem claim_C6_last_trading_day :
    (∀ (isUSMarket : Bool) (nowDay nowHour : Int), ∃ d,
        polygonGetLastCompleteTradingDay isUSMarket nowDay nowHour = some d ∧
        isTradingDay d isUSMarket = true ∧
        (nowHour < marketCloseHour isUSMarket → d < nowDay)) ∧
    (∀ (isUSMarket : Bool) (nowDay nowHour : Int),
        yahooGetLastTradingDay isUSMarket nowDay nowHour =
          polygonGetLastCompleteTradingDay isUSMarket nowDay nowHour) ∧
    (∀ (nowDay nowHour : Int),
        isTradingDay (getLastTradingDayTase nowDay nowHour) false = true) := by
  refine ⟨polygonGet_spec, ?_, ?_⟩
  · intro isUSMarket nowDay nowHour
    exact yahoo_polygon_loop_agree isUSMarket nowDay nowHour 8 nowDay
  · intro nowDay nowHour
    simp only [getLastTradingDayTase, isTradingDay, pyWeekday, decide_eq_true_eq,
      Bool.if_false_left, Bool.false_eq_true, if_false]
    split_ifs <;> omega

/-- C6 witness: the amended theorem evaluated on a US symbol on Monday
(epoch day 4) at 10:00, before the 16:00 close: the result is Friday (epoch
day 1), a trading day strictly before today; and the TASE-variant part on a
concrete instant. -/
theorem claim_C6_witness :
    isTradingDay 1 true = true ∧ (1 : Int) < 4 ∧
    yahooGetLastTradingDay true 4 10 = polygonGetLastCompleteTradingDay true 4 10 ∧
    isTradingDay (getLastTradingDayTase 4 8) false = true := by
  have T := claim_C6_last_trading_day
  obtain ⟨d, hd, htrad, himp⟩ := T.1 true 4 10
  have hval : polygonGetLastCompleteTradingDay true 4 10 = some 1 := by decide
  rw [hval] at hd
  obtain rfl := Option.some.inj hd
  exact ⟨htrad, himp (by norm_num [marketCloseHour]), T.2.1 true 4 10, T.2.2 4 8⟩

/-- C10: the backward walk terminates for every market and every starting
day/hour: with a fuel bound of 8 one-day steps, both the Polygon and the
Yahoo-service loops always return a result (the fuelled model never reaches
its out-of-fuel case). -/
theorem claim_C10_walk_terminates :
    ∀ (isUSMarket : Bool) (nowDay nowHour : Int),
      (polygonGetLastCompleteTradingDay isUSMarket nowDay nowHour).isSome = true ∧
      (yahooGetLastTradingDay isUSMarket nowDay nowHour).isSome = true := by
  intro isUSMarket nowDay nowHour
  obtain ⟨d, hd, -, -⟩ := polygonGet_spec isUSMarket nowDay nowHour
  constructor
  · rw [hd]; rfl
  · unfold yahooGetLastTradingDay
    rw [yahoo_polygon_loop_agree isUSMarket nowDay nowHour 8 nowDay]
    unfold polygonGetLastCompleteTradingDay at hd
    rw [hd]
    rfl

/-! ## Claim C7 -/

/-- C7: in `_apply_rate_limit`, on the 5th request within the current minute
(state: `request_count = 4`, last request 10 s ago at `now = 110`), the sleeps
performed are the 2 s top-up of the 12 s minimum delay followed by the
post-5-requests cooldown — and that cooldown is 15 seconds, not the 120
seconds (2 minutes) announced by the function's own comments.  The separate
120-second mandatory break does exist, but in
`fetch_multiple_stocks_with_breaks`, after every 5th symbol that is not the
last one. -/
theorem claim_C7_cooldown_sleep :
    (applyRateLimit ⟨4, some 100⟩ 110 50 111).1 = [2, 15] ∧
    (applyRateLimit ⟨4, some 100⟩ 110 50 111).2 = ⟨0, some 111⟩ ∧
    ¬ (15 : Int) = 120 ∧
    polygonBatchBreak 4 10 = [120] ∧
    polygonBatchBreak 9 10 = [] := by
  refine ⟨rfl, rfl, by norm_num, rfl, rfl⟩

end StockRepo
